import Mathlib

/-!
Shallow embedding of the FPuantaj payroll core (TypeScript) in Lean 4.

Numbers: the TypeScript code computes on JS numbers; all arithmetic used by the
payroll core is +, -, *, /, min, max, which we model exactly over ℚ.
String-valued ids are modelled as `String`; database-generated uuids for
overtime/payroll rows are modelled as a `Nat` counter in the state (uuid
generation never collides, so a fresh counter is a faithful abstraction).

Sources embedded:
  - src/unnamed/part_003  (payroll.service: calculateOfficialAndCash,
    calculatePayrollFields, transformToResponse, getPayrollByMonth,
    updatePayroll, batchUpdatePayroll, zod schemas)
  - src/backend/src/routes/trafficFine.ts trailing section
    (calculation.service: calculateDailyWage, calculateEarnedSalary,
    calculateTotalReceivable, calculatePayroll)
  - src/backend/src/services/overtime.service.ts
    (createOvertimeEntry, deleteOvertimeEntry)
-/

/-- Error value thrown through AppError in the backend: HTTP status, error code,
message. -/
structure AppError where
  status : Nat
  code : String
  message : String
deriving DecidableEq, Repr

/-- Result of calculateOfficialAndCash (part_003 lines 110-142). -/
structure SplitResult where
  officialPayment : ℚ
  cashPayment : ℚ
deriving DecidableEq, Repr

/-- FIXED_OFFICIAL_PAYMENT constant (part_003 line 44). -/
def FIXED_OFFICIAL_PAYMENT : ℚ := 28075

/-- OFFICIAL_WORKING_DAYS_BASE constant (part_003 line 45). -/
def OFFICIAL_WORKING_DAYS_BASE : ℚ := 30

/-- calculateOfficialAndCash (part_003 lines 110-142): the official/cash split
engine. Negative inputs are clamped to 0 through the safe* locals before both
the cash-base accumulation and the advance subtraction. -/
def calculateOfficialAndCash (isInsured : Bool) (salary workingDays daysWorked
    overtime50 overtime100 cashAdvance officialAdvance : ℚ) : SplitResult :=
  let dailyWage := salary / workingDays
  let earnedSalary := dailyWage * daysWorked
  let safeEarned := max 0 earnedSalary
  let safeOvertime50 := max 0 overtime50
  let safeOvertime100 := max 0 overtime100
  let safeCashAdvance := max 0 cashAdvance
  let safeOfficialAdvance := max 0 officialAdvance
  if !isInsured then
    let cashBase := safeEarned + safeOvertime50 + safeOvertime100
    let cashPayment := max 0 (cashBase - min cashBase safeCashAdvance)
    { officialPayment := 0, cashPayment := cashPayment }
  else
    let officialDaily := FIXED_OFFICIAL_PAYMENT / OFFICIAL_WORKING_DAYS_BASE
    let officialBase := min safeEarned (max 0 (officialDaily * daysWorked))
    let cashBase := max 0 (safeEarned - officialBase) + safeOvertime50 + safeOvertime100
    let officialPayment := max 0 (officialBase - min officialBase safeOfficialAdvance)
    let cashPayment := max 0 (cashBase - min cashBase safeCashAdvance)
    { officialPayment := officialPayment, cashPayment := cashPayment }

/-- Modelled from the words of claim C1 (the spec's §4.2 algorithm), for
comparison with `calculateOfficialAndCash`: the claimed formulas apply the
advances raw (no clamping of a negative advance before the min/max). -/
def splitSpecC1 (isInsured : Bool) (salary workingDaysBase daysWorked
    overtime50 overtime100 advance officialAdvance : ℚ) : SplitResult :=
  let earned := max 0 (salary / workingDaysBase * daysWorked)
  let officialBase :=
    if isInsured then min earned (max 0 (FIXED_OFFICIAL_PAYMENT / OFFICIAL_WORKING_DAYS_BASE * daysWorked)) else 0
  let cashBase := max 0 (earned - officialBase) + max 0 overtime50 + max 0 overtime100
  let officialPayment :=
    if isInsured then max 0 (officialBase - min officialBase officialAdvance) else 0
  let cashPayment := max 0 (cashBase - min cashBase advance)
  { officialPayment := officialPayment, cashPayment := cashPayment }

/-- Validation message of calculateDailyWage for a non-positive working-day
base. -/
def msgWorkingDaysPos : String := "Calisma gun sayisi pozitif olmalidir"

/-- Validation message of calculateDailyWage for a negative salary. -/
def msgSalaryNeg : String := "Maas negatif olamaz"

/-- Validation message of calculateEarnedSalary for negative days worked. -/
def msgDaysWorkedNeg : String := "Calistigi gun sayisi negatif olamaz"

/-- Validation message of calculateEarnedSalary for a negative daily wage. -/
def msgDailyWageNeg : String := "Gunluk ucret negatif olamaz"

/-- calculateDailyWage (calculation.service): salary / workingDays, throwing on
workingDays ≤ 0 or salary < 0. -/
def calculateDailyWage (salary workingDays : ℚ) : Except String ℚ :=
  if workingDays ≤ 0 then
    .error msgWorkingDaysPos
  else if salary < 0 then
    .error msgSalaryNeg
  else
    .ok (salary / workingDays)

/-- calculateEarnedSalary (calculation.service): dailyWage * daysWorked,
throwing on daysWorked < 0 or dailyWage < 0. -/
def calculateEarnedSalary (dailyWage daysWorked : ℚ) : Except String ℚ :=
  if daysWorked < 0 then
    .error msgDaysWorkedNeg
  else if dailyWage < 0 then
    .error msgDailyWageNeg
  else
    .ok (dailyWage * daysWorked)

/-- calculateTotalReceivable (calculation.service): earned + overtime - advance;
the officialPayment and cashPayment arguments are voided by the source and do
not enter the result. -/
def calculateTotalReceivable (earnedSalary overtime50 overtime100 advance
    officialPayment cashPayment : ℚ) : ℚ :=
  let _ := officialPayment
  let _ := cashPayment
  earnedSalary + overtime50 + overtime100 - advance

/-- Validation message of calculatePayroll for a negative advance. -/
def msgAdvanceNeg : String := "Avans negatif olamaz"

/-- Validation message of calculatePayroll for negative 50% overtime. -/
def msgOvertime50Neg : String := "50 mesai ucreti negatif olamaz"

/-- Validation message of calculatePayroll for negative 100% overtime. -/
def msgOvertime100Neg : String := "100 mesai ucreti negatif olamaz"

/-- Validation message of calculatePayroll for a negative official payment. -/
def msgOfficialPaymentNeg : String := "Resmi odeme negatif olamaz"

/-- Validation message of calculatePayroll for a negative cash payment. -/
def msgCashPaymentNeg : String := "Elden odeme negatif olamaz"

/-- Message for the impossible case of a payroll row whose employee join is
missing (the database enforces the foreign key). -/
def msgMissingEmployee : String := "Calisan iliskisi bulunamadi"

/-- CalculationInput (calculation.service). -/
structure CalculationInput where
  salary : ℚ
  workingDays : ℚ
  daysWorked : ℚ
  advance : ℚ
  overtime50 : ℚ
  overtime100 : ℚ
  officialPayment : ℚ
  cashPayment : ℚ
deriving DecidableEq, Repr

/-- CalculationResult (calculation.service). -/
structure CalculationResult where
  dailyWage : ℚ
  earnedSalary : ℚ
  totalReceivable : ℚ
deriving DecidableEq, Repr

/-- calculatePayroll (calculation.service): validates all eight inputs in
source order, then chains calculateDailyWage, calculateEarnedSalary and
calculateTotalReceivable. -/
def calculatePayroll (input : CalculationInput) : Except String CalculationResult :=
  if input.salary < 0 then .error msgSalaryNeg
  else if input.workingDays ≤ 0 then .error msgWorkingDaysPos
  else if input.daysWorked < 0 then .error msgDaysWorkedNeg
  else if input.advance < 0 then .error msgAdvanceNeg
  else if input.overtime50 < 0 then .error msgOvertime50Neg
  else if input.overtime100 < 0 then .error msgOvertime100Neg
  else if input.officialPayment < 0 then .error msgOfficialPaymentNeg
  else if input.cashPayment < 0 then .error msgCashPaymentNeg
  else
    match calculateDailyWage input.salary input.workingDays with
    | .error m => .error m
    | .ok dailyWage =>
      match calculateEarnedSalary dailyWage input.daysWorked with
      | .error m => .error m
      | .ok earnedSalary =>
        .ok { dailyWage := dailyWage
              earnedSalary := earnedSalary
              totalReceivable := calculateTotalReceivable earnedSalary input.overtime50
                input.overtime100 input.advance input.officialPayment input.cashPayment }

/-- A (year, month) date; the payroll core only reads the month and year of an
employee's end date (part_003 lines 243-245). -/
structure DateYM where
  year : Nat
  month : Nat
deriving DecidableEq, Repr

/-- Employee row, restricted to the fields the payroll core reads. -/
structure Employee where
  id : String
  fullName : String
  isInsured : Bool
  salary : ℚ
  workingDays : ℚ
  endDate : Option DateYM
deriving DecidableEq, Repr

/-- PayrollEntry row. Row uuids are modelled as Nats drawn from a counter. -/
structure PayrollEntry where
  id : Nat
  employeeId : String
  month : Nat
  year : Nat
  sortOrder : ℚ
  daysWorked : ℚ
  advance : ℚ
  officialAdvance : ℚ
  overtime50 : ℚ
  overtime100 : ℚ
  officialPayment : ℚ
  cashPayment : ℚ
deriving DecidableEq, Repr

/-- Overtime entry type enum. -/
inductive OvertimeType where
  | OVERTIME_50
  | OVERTIME_100
deriving DecidableEq, Repr

/-- OvertimeEntry row (entryDate and timestamps omitted: the core never reads
them except for list ordering, which is not modelled). -/
structure OvertimeEntry where
  id : Nat
  employeeId : String
  month : Nat
  year : Nat
  type : OvertimeType
  multiplier : ℚ
  hours : ℚ
  amount : ℚ
  description : Option String
deriving DecidableEq, Repr

/-- The (employeeId, month, year) key of an overtime entry. -/
def otKey (o : OvertimeEntry) : String × Nat × Nat := (o.employeeId, o.month, o.year)

/-- PayrollEntryResponse (part_003 lines 48-78), timestamps omitted. -/
structure PayrollEntryResponse where
  id : Nat
  employeeId : String
  month : Nat
  year : Nat
  sortOrder : ℚ
  daysWorked : ℚ
  advance : ℚ
  officialAdvance : ℚ
  overtime50 : ℚ
  overtime100 : ℚ
  officialPayment : ℚ
  cashPayment : ℚ
  dailyWage : ℚ
  earnedSalary : ℚ
  totalReceivable : ℚ
  employee : Employee
deriving DecidableEq, Repr

/-- Database state: the tables the payroll core touches plus fresh-id counters
standing in for uuid generation. -/
structure DB where
  employees : List Employee
  entries : List PayrollEntry
  overtime : List OvertimeEntry
  nextEntryId : Nat
  nextOtId : Nat
deriving DecidableEq, Repr

/-- prisma.employee.findUnique on id. -/
def lookupEmployee (st : DB) (empId : String) : Option Employee :=
  st.employees.find? (fun e => decide (e.id = empId))

/-- prisma.payrollEntry.findUnique on id. -/
def findEntryById (st : DB) (i : Nat) : Option PayrollEntry :=
  st.entries.find? (fun e => decide (e.id = i))

/-- The (employeeId, month, year) unique key of a payroll entry. -/
def entryKey (e : PayrollEntry) : String × Nat × Nat := (e.employeeId, e.month, e.year)

/-- prisma.payrollEntry.findUnique on the employeeId_month_year key. -/
def findEntryByKey (st : DB) (empId : String) (m y : Nat) : Option PayrollEntry :=
  st.entries.find? (fun e => decide (entryKey e = (empId, m, y)))

/-- prisma.payrollEntry.upsert on the employeeId_month_year key: the first row
matching the key is updated, otherwise the create row is appended. -/
def upsertEntryByKey (k : String × Nat × Nat) (upd : PayrollEntry → PayrollEntry)
    (c : PayrollEntry) : List PayrollEntry → List PayrollEntry
  | [] => [c]
  | e :: rest =>
    if entryKey e = k then upd e :: rest else e :: upsertEntryByKey k upd c rest

/-- prisma.payrollEntry.update on id: replaces the first row with that id. -/
def replaceEntryById (i : Nat) (u : PayrollEntry) : List PayrollEntry → List PayrollEntry
  | [] => []
  | e :: rest => if e.id = i then u :: rest else e :: replaceEntryById i u rest

/-- AppError for a payroll entry that does not exist. -/
def errPayrollNotFound : AppError :=
  { status := 404, code := "PAYROLL_NOT_FOUND", message := "Puantaj kaydi bulunamadi" }

/-- AppError for a missing employee (message carries the requested id, as the
source interpolates it). -/
def errEmployeeNotFound (empId : String) : AppError :=
  { status := 404, code := "EMPLOYEE_NOT_FOUND", message := "Calisan bulunamadi: " ++ empId }

/-- AppError for a missing overtime entry. -/
def errOvertimeNotFound : AppError :=
  { status := 404, code := "OVERTIME_NOT_FOUND", message := "Mesai kaydi bulunamadi" }

/-- AppError produced by the error handler for a zod validation failure. -/
def errValidation : AppError :=
  { status := 400, code := "VALIDATION_ERROR", message := "Gecersiz veri" }

/-- AppError for a month outside 1-12. -/
def errInvalidMonth : AppError :=
  { status := 400, code := "INVALID_MONTH", message := "Ay 1-12 arasinda olmalidir" }

/-- AppError for a year outside 2000-2100. -/
def errInvalidYear : AppError :=
  { status := 400, code := "INVALID_YEAR", message := "Yil 2000-2100 arasinda olmalidir" }

/-- AppError produced by the error handler for a raw thrown Error. -/
def errInternal (m : String) : AppError :=
  { status := 500, code := "INTERNAL_ERROR", message := m }

/-- calculatePayrollFields (part_003 lines 84-108): feeds calculatePayroll with
advance = cash advance + official advance. -/
def calculatePayrollFields (salary workingDays : ℚ) (entry : PayrollEntry) :
    Except String CalculationResult :=
  calculatePayroll
    { salary := salary
      workingDays := workingDays
      daysWorked := entry.daysWorked
      advance := entry.advance + entry.officialAdvance
      overtime50 := entry.overtime50
      overtime100 := entry.overtime100
      officialPayment := entry.officialPayment
      cashPayment := entry.cashPayment }

/-- transformToResponse (part_003 lines 147-212): recomputes the split and the
derived calculation fields from the stored row on every read. -/
def transformToResponse (employee : Employee) (entry : PayrollEntry) :
    Except String PayrollEntryResponse :=
  let split := calculateOfficialAndCash employee.isInsured employee.salary
    employee.workingDays entry.daysWorked entry.overtime50 entry.overtime100
    entry.advance entry.officialAdvance
  match calculatePayrollFields employee.salary employee.workingDays entry with
  | .error m => .error m
  | .ok calculations => .ok
      { id := entry.id
        employeeId := entry.employeeId
        month := entry.month
        year := entry.year
        sortOrder := entry.sortOrder
        daysWorked := entry.daysWorked
        advance := entry.advance
        officialAdvance := entry.officialAdvance
        overtime50 := entry.overtime50
        overtime100 := entry.overtime100
        officialPayment := split.officialPayment
        cashPayment := split.cashPayment
        dailyWage := calculations.dailyWage
        earnedSalary := calculations.earnedSalary
        totalReceivable := calculations.totalReceivable
        employee := employee }

/-- The active-for-period filter of getPayrollByMonth (part_003 lines 240-252):
keep an employee with no endDate, or whose endDate year/month is the requested
period or later. -/
def isActiveFor (month year : Nat) (emp : Employee) : Bool :=
  match emp.endDate with
  | none => true
  | some d => decide (year < d.year ∨ (d.year = year ∧ month ≤ d.month))

/-- The zero-valued payroll entry auto-created by getPayrollByMonth for an
active employee without one (part_003 lines 268-282). -/
def mkPeriodEntry (month year : Nat) (i : Nat) (emp : Employee) : PayrollEntry :=
  { id := i
    employeeId := emp.id
    month := month
    year := year
    sortOrder := 0
    daysWorked := emp.workingDays
    advance := 0
    officialAdvance := 0
    overtime50 := 0
    overtime100 := 0
    officialPayment := 0
    cashPayment := 0 }

/-- prisma.payrollEntry.createMany over the employees lacking an entry, with
row ids drawn from the fresh-id counter. -/
def mkPeriodEntries (month year : Nat) : Nat → List Employee → List PayrollEntry
  | _, [] => []
  | i, emp :: rest => mkPeriodEntry month year i emp :: mkPeriodEntries month year (i + 1) rest

/-- Mapping of transformToResponse over fetched rows with their employee join
(the joined employee is looked up in the state; the database's foreign key
makes the missing case unreachable). -/
def transformList (st : DB) : List PayrollEntry → Except AppError (List PayrollEntryResponse)
  | [] => .ok []
  | e :: rest =>
    match lookupEmployee st e.employeeId with
    | none => .error (errInternal msgMissingEmployee)
    | some emp =>
      match transformToResponse emp e with
      | .error m => .error (errInternal m)
      | .ok r =>
        match transformList st rest with
        | .error err => .error err
        | .ok rs => .ok (r :: rs)

/-- The `employees` local of getPayrollByMonth (part_003 lines 240-252): the
employees passing the active-for-period filter. -/
def periodActiveEmployees (st : DB) (month year : Nat) : List Employee :=
  st.employees.filter (isActiveFor month year)

/-- The `existingMap` keys of getPayrollByMonth (part_003 lines 254-265): the
employeeIds that already have an entry for the period. -/
def periodExistingIds (st : DB) (month year : Nat) : List String :=
  (st.entries.filter (fun e => decide (e.month = month ∧ e.year = year))).map
    (fun e => e.employeeId)

/-- The employees getPayrollByMonth creates entries for (part_003 lines
268-269). -/
def periodToCreate (st : DB) (month year : Nat) : List Employee :=
  (periodActiveEmployees st month year).filter
    (fun emp => decide (emp.id ∉ periodExistingIds st month year))

/-- The state after getPayrollByMonth's createMany (part_003 lines 284-288). -/
def periodCreatedState (st : DB) (month year : Nat) : DB :=
  { st with
    entries := st.entries
      ++ mkPeriodEntries month year st.nextEntryId (periodToCreate st month year)
    nextEntryId := st.nextEntryId + (periodToCreate st month year).length }

/-- The `filteredEntries` local of getPayrollByMonth (part_003 lines 294-308):
the re-fetched period rows restricted to the active employees. -/
def periodFiltered (st : DB) (month year : Nat) : List PayrollEntry :=
  ((periodCreatedState st month year).entries.filter
      (fun e => decide (e.month = month ∧ e.year = year))).filter
    (fun e => decide (e.employeeId ∈ (periodActiveEmployees st month year).map
      (fun emp => emp.id)))

/-- getPayrollByMonth (part_003 lines 221-311), decomposed through the
period* definitions above, which name its local variables. The result is the
state after the createMany together with the HTTP outcome. The orderBy
clauses (employee name, sortOrder) only permute the returned list and are not
modelled; all claims about this operation are order-insensitive. -/
def getPayrollByMonth (st : DB) (month year : Nat) :
    DB × Except AppError (List PayrollEntryResponse) :=
  if month < 1 || month > 12 then (st, .error errInvalidMonth)
  else if year < 2000 || year > 2100 then (st, .error errInvalidYear)
  else
    match transformList (periodCreatedState st month year) (periodFiltered st month year) with
    | .error err => (periodCreatedState st month year, .error err)
    | .ok rs => (periodCreatedState st month year, .ok rs)

/-- Validated shape of one optional money field of updatePayrollSchema:
absent, or a number ≥ 0. -/
def validOptNonneg : Option ℚ → Bool
  | none => true
  | some x => decide (0 ≤ x)

/-- Validated shape of an optional bounded integer field (zod int().min(lo)
.max(hi)): absent, or an integer-valued number inside the bounds. -/
def validOptIntRange (lo hi : ℚ) : Option ℚ → Bool
  | none => true
  | some x => decide (lo ≤ x ∧ x ≤ hi ∧ x.den = 1)

/-- Validated shape of an optional non-negative integer field. -/
def validOptIntNonneg : Option ℚ → Bool
  | none => true
  | some x => decide (0 ≤ x ∧ x.den = 1)

/-- UpdatePayrollInput: the optional fields accepted by updatePayrollSchema. -/
structure UpdatePayrollInput where
  daysWorked : Option ℚ
  advance : Option ℚ
  officialAdvance : Option ℚ
  overtime50 : Option ℚ
  overtime100 : Option ℚ
  officialPayment : Option ℚ
  cashPayment : Option ℚ
  sortOrder : Option ℚ
deriving DecidableEq, Repr

/-- updatePayrollSchema.parse (part_003 lines 14-23) as a boolean check (the
uuid shape of ids is abstracted). -/
def parseUpdatePayroll (i : UpdatePayrollInput) : Bool :=
  validOptIntRange 0 31 i.daysWorked
    && validOptNonneg i.advance
    && validOptNonneg i.officialAdvance
    && validOptNonneg i.overtime50
    && validOptNonneg i.overtime100
    && validOptNonneg i.officialPayment
    && validOptNonneg i.cashPayment
    && validOptIntNonneg i.sortOrder

/-- The official/cash base recomputation block duplicated at part_003 lines
389-394 (updatePayroll) and 472-477 (batchUpdatePayroll): returns
(baseOfficial, baseCash) for the merged daysWorked/overtime values. -/
def recomputeBases (emp : Employee) (daysWorked overtime50 overtime100 : ℚ) : ℚ × ℚ :=
  let earned := max 0 (emp.salary / emp.workingDays * daysWorked)
  let officialDaily := FIXED_OFFICIAL_PAYMENT / OFFICIAL_WORKING_DAYS_BASE
  let baseOfficial := if emp.isInsured then min earned (max 0 (officialDaily * daysWorked)) else 0
  let baseCash := max 0 (earned - baseOfficial) + max 0 overtime50 + max 0 overtime100
  (baseOfficial, baseCash)

/-- The row written by updatePayroll (part_003 lines 354-423): provided fields
merged over the existing row, advances clamped against the freshly recomputed
bases, and officialPayment/cashPayment overwritten with the split engine's
output (the values supplied in the input for those two fields are validated
but then discarded, lines 372-377 and 404-415). -/
def applyUpdate (emp : Employee) (existingEntry : PayrollEntry)
    (v : UpdatePayrollInput) : PayrollEntry :=
  let nextDaysWorked := v.daysWorked.getD existingEntry.daysWorked
  let nextCashAdvanceRaw := v.advance.getD existingEntry.advance
  let nextOfficialAdvanceRaw := v.officialAdvance.getD existingEntry.officialAdvance
  let nextOvertime50 := v.overtime50.getD existingEntry.overtime50
  let nextOvertime100 := v.overtime100.getD existingEntry.overtime100
  let bases := recomputeBases emp nextDaysWorked nextOvertime50 nextOvertime100
  let nextCashAdvance := min (max 0 nextCashAdvanceRaw) bases.2
  let nextOfficialAdvance :=
    if emp.isInsured then min (max 0 nextOfficialAdvanceRaw) bases.1 else 0
  let split := calculateOfficialAndCash emp.isInsured emp.salary emp.workingDays
    nextDaysWorked nextOvertime50 nextOvertime100 nextCashAdvance nextOfficialAdvance
  { existingEntry with
    daysWorked := nextDaysWorked
    overtime50 := nextOvertime50
    overtime100 := nextOvertime100
    sortOrder := v.sortOrder.getD existingEntry.sortOrder
    advance := nextCashAdvance
    officialAdvance := nextOfficialAdvance
    officialPayment := split.officialPayment
    cashPayment := split.cashPayment }

/-- updatePayroll (part_003 lines 337-426): existence check, validation, merge
and clamp, persist, re-derive the response. The returned state is the table
contents after the call. -/
def updatePayroll (st : DB) (i : Nat) (input : UpdatePayrollInput) :
    DB × Except AppError PayrollEntryResponse :=
  match findEntryById st i with
  | none => (st, .error errPayrollNotFound)
  | some existingEntry =>
    match lookupEmployee st existingEntry.employeeId with
    | none => (st, .error (errInternal msgMissingEmployee))
    | some emp =>
      if parseUpdatePayroll input then
        match transformToResponse emp (applyUpdate emp existingEntry input) with
        | .error m =>
          ({ st with entries := replaceEntryById i (applyUpdate emp existingEntry input) st.entries },
            .error (errInternal m))
        | .ok r =>
          ({ st with entries := replaceEntryById i (applyUpdate emp existingEntry input) st.entries },
            .ok r)
      else (st, .error errValidation)

/-- One element of the batchUpdateSchema array (part_003 lines 25-39). -/
structure BatchUpdateItem where
  employeeId : String
  month : Nat
  year : Nat
  daysWorked : Option ℚ
  advance : Option ℚ
  officialAdvance : Option ℚ
  overtime50 : Option ℚ
  overtime100 : Option ℚ
  officialPayment : Option ℚ
  cashPayment : Option ℚ
  sortOrder : Option ℚ
deriving DecidableEq, Repr

/-- Validation of one batch item (the uuid shape of employeeId is
abstracted). -/
def parseBatchItem (i : BatchUpdateItem) : Bool :=
  decide (1 ≤ i.month ∧ i.month ≤ 12)
    && decide (2000 ≤ i.year ∧ i.year ≤ 2100)
    && validOptIntRange 0 31 i.daysWorked
    && validOptNonneg i.advance
    && validOptNonneg i.officialAdvance
    && validOptNonneg i.overtime50
    && validOptNonneg i.overtime100
    && validOptNonneg i.officialPayment
    && validOptNonneg i.cashPayment
    && validOptIntNonneg i.sortOrder

/-- The row written by one batch item (part_003 lines 452-538). `existing` is
the actual stored row for the item's key; the code only fetches it (and only
recomputes the split) when daysWorked, advance or officialAdvance is supplied,
so merges fall back to 0 otherwise. On update, a field is only written when the
item supplies it; on create, the merged/clamped values are written. -/
def applyBatchItem (emp : Employee) (existing : Option PayrollEntry) (newId : Nat)
    (item : BatchUpdateItem) : PayrollEntry :=
  let shouldRecalculateSplit :=
    item.daysWorked.isSome || item.advance.isSome || item.officialAdvance.isSome
  let existingFetched := if shouldRecalculateSplit then existing else none
  let nextDaysWorked := item.daysWorked.getD ((existingFetched.map (·.daysWorked)).getD 0)
  let nextOvertime50 := item.overtime50.getD ((existingFetched.map (·.overtime50)).getD 0)
  let nextOvertime100 := item.overtime100.getD ((existingFetched.map (·.overtime100)).getD 0)
  let bases := recomputeBases emp nextDaysWorked nextOvertime50 nextOvertime100
  let nextCashAdvance :=
    min (max 0 (item.advance.getD ((existingFetched.map (·.advance)).getD 0))) bases.2
  let nextOfficialAdvance :=
    if emp.isInsured then
      min (max 0 (item.officialAdvance.getD ((existingFetched.map (·.officialAdvance)).getD 0))) bases.1
    else 0
  let split := calculateOfficialAndCash emp.isInsured emp.salary emp.workingDays
    nextDaysWorked nextOvertime50 nextOvertime100 nextCashAdvance nextOfficialAdvance
  match existing with
  | some old =>
      { old with
        daysWorked := item.daysWorked.getD old.daysWorked
        advance := if item.advance.isSome then nextCashAdvance else old.advance
        officialAdvance :=
          if item.officialAdvance.isSome then nextOfficialAdvance else old.officialAdvance
        overtime50 := item.overtime50.getD old.overtime50
        overtime100 := item.overtime100.getD old.overtime100
        officialPayment :=
          if shouldRecalculateSplit then split.officialPayment else old.officialPayment
        cashPayment :=
          if shouldRecalculateSplit then split.cashPayment else old.cashPayment
        sortOrder := item.sortOrder.getD old.sortOrder }
  | none =>
      { id := newId
        employeeId := item.employeeId
        month := item.month
        year := item.year
        daysWorked := nextDaysWorked
        advance := nextCashAdvance
        officialAdvance := nextOfficialAdvance
        overtime50 := item.overtime50.getD 0
        overtime100 := item.overtime100.getD 0
        officialPayment := if shouldRecalculateSplit then split.officialPayment else 0
        cashPayment := if shouldRecalculateSplit then split.cashPayment else 0
        sortOrder := item.sortOrder.getD 0 }

/-- The per-item loop of batchUpdatePayroll (part_003 lines 442-541). A missing
employee throws, which ends the whole loop: the state reached so far is kept
(earlier upserts were separate committed transactions) but the call returns the
error and no responses. -/
def batchLoop (st : DB) : List BatchUpdateItem → DB × Except AppError (List PayrollEntryResponse)
  | [] => (st, .ok [])
  | item :: rest =>
    match lookupEmployee st item.employeeId with
    | none => (st, .error (errEmployeeNotFound item.employeeId))
    | some emp =>
      let existing := findEntryByKey st item.employeeId item.month item.year
      let upserted := applyBatchItem emp existing st.nextEntryId item
      let st' : DB := { st with
        entries := upsertEntryByKey (item.employeeId, item.month, item.year)
          (fun _ => upserted) upserted st.entries
        nextEntryId := if existing.isSome then st.nextEntryId else st.nextEntryId + 1 }
      match transformToResponse emp upserted with
      | .error m => (st', .error (errInternal m))
      | .ok r =>
        match batchLoop st' rest with
        | (st'', .error e) => (st'', .error e)
        | (st'', .ok rs) => (st'', .ok (r :: rs))

/-- batchUpdatePayroll (part_003 lines 434-544): the whole array is validated
up front by batchUpdateSchema.parse, then items are processed in order. -/
def batchUpdatePayroll (st : DB) (items : List BatchUpdateItem) :
    DB × Except AppError (List PayrollEntryResponse) :=
  if items.all parseBatchItem then batchLoop st items
  else (st, .error errValidation)

/-- CreateOvertimeEntryInput (overtime.service.ts lines 5-17); entryDate is
not read by the core logic and is omitted. -/
structure CreateOvertimeEntryInput where
  employeeId : String
  month : Nat
  year : Nat
  type : OvertimeType
  multiplier : ℚ
  hours : ℚ
  amount : ℚ
  description : Option String
deriving DecidableEq, Repr

/-- createOvertimeEntry (overtime.service.ts lines 57-109): employee check,
then one transaction inserting the overtime row and upserting the payroll row
with the matching overtime field incremented (or created carrying the
amount). -/
def createOvertimeEntry (st : DB) (input : CreateOvertimeEntryInput) :
    DB × Except AppError OvertimeEntry :=
  match lookupEmployee st input.employeeId with
  | none => (st, .error (errEmployeeNotFound input.employeeId))
  | some employee =>
    let entry : OvertimeEntry :=
      { id := st.nextOtId
        employeeId := input.employeeId
        month := input.month
        year := input.year
        type := input.type
        multiplier := input.multiplier
        hours := input.hours
        amount := input.amount
        description := input.description }
    let upd : PayrollEntry → PayrollEntry := fun e =>
      match input.type with
      | .OVERTIME_50 => { e with overtime50 := e.overtime50 + input.amount }
      | .OVERTIME_100 => { e with overtime100 := e.overtime100 + input.amount }
    let c : PayrollEntry :=
      { id := st.nextEntryId
        employeeId := input.employeeId
        month := input.month
        year := input.year
        sortOrder := 0
        daysWorked := employee.workingDays
        advance := 0
        officialAdvance := 0
        overtime50 := if input.type = .OVERTIME_50 then input.amount else 0
        overtime100 := if input.type = .OVERTIME_100 then input.amount else 0
        officialPayment := 0
        cashPayment := 0 }
    let hadRow := (findEntryByKey st input.employeeId input.month input.year).isSome
    let st' : DB := { st with
      overtime := st.overtime ++ [entry]
      entries := upsertEntryByKey (input.employeeId, input.month, input.year) upd c st.entries
      nextOtId := st.nextOtId + 1
      nextEntryId := if hadRow then st.nextEntryId else st.nextEntryId + 1 }
    (st', .ok entry)

/-- deleteOvertimeEntry (overtime.service.ts lines 122-140): look up the row
(NOT_FOUND if absent), then one transaction deleting it and decrementing the
matching payroll rows' overtime field by the stored amount, with no clamping. -/
def deleteOvertimeEntry (st : DB) (i : Nat) : DB × Except AppError Unit :=
  match st.overtime.find? (fun o => decide (o.id = i)) with
  | none => (st, .error errOvertimeNotFound)
  | some entry =>
    let dec : PayrollEntry → PayrollEntry := fun e =>
      match entry.type with
      | .OVERTIME_50 => { e with overtime50 := e.overtime50 - entry.amount }
      | .OVERTIME_100 => { e with overtime100 := e.overtime100 - entry.amount }
    let st' : DB := { st with
      overtime := st.overtime.filter (fun o => decide (¬ o.id = i))
      entries := st.entries.map (fun e =>
        if entryKey e = otKey entry then dec e else e) }
    (st', .ok ())

/-- A call into the overtime ledger: create or delete. -/
inductive OvertimeOp where
  | create (input : CreateOvertimeEntryInput)
  | delete (i : Nat)

/-- The state after one overtime operation (failed calls leave the state
unchanged: both operations are transactional). -/
def applyOvertimeOp (st : DB) : OvertimeOp → DB
  | .create input => (createOvertimeEntry st input).1
  | .delete i => (deleteOvertimeEntry st i).1

/-- The state after a sequence of overtime operations. -/
def runOvertimeOps (st : DB) : List OvertimeOp → DB
  | [] => st
  | op :: ops => runOvertimeOps (applyOvertimeOp st op) ops

/-- Contribution of one overtime row to the type/key total. -/
def otAmount (t : OvertimeType) (k : String × Nat × Nat) (o : OvertimeEntry) : ℚ :=
  if otKey o = k ∧ o.type = t then o.amount else 0

/-- Sum of the stored amounts of the overtime entries of one type for one
(employeeId, month, year). -/
def overtimeSum (st : DB) (t : OvertimeType) (k : String × Nat × Nat) : ℚ :=
  (st.overtime.map (otAmount t k)).sum

/-- The overtime50 or overtime100 field of a payroll row, selected by type. -/
def entryField (t : OvertimeType) (e : PayrollEntry) : ℚ :=
  match t with
  | .OVERTIME_50 => e.overtime50
  | .OVERTIME_100 => e.overtime100

/-- Total of the selected overtime field over the payroll rows with the given
key (with the unique-key constraint this is the single matching row's field,
and 0 when no row exists). -/
def payrollFieldSum (st : DB) (t : OvertimeType) (k : String × Nat × Nat) : ℚ :=
  (st.entries.map (fun e => if entryKey e = k then entryField t e else 0)).sum

/-- The state after one batchUpdatePayroll item has been upserted for the
resolved employee (the st' of the loop body, named for use in lemma
statements). -/
def batchStepState (st : DB) (emp : Employee) (item : BatchUpdateItem) : DB :=
  { st with
    entries := upsertEntryByKey (item.employeeId, item.month, item.year)
      (fun _ => applyBatchItem emp
        (findEntryByKey st item.employeeId item.month item.year) st.nextEntryId item)
      (applyBatchItem emp
        (findEntryByKey st item.employeeId item.month item.year) st.nextEntryId item)
      st.entries
    nextEntryId := if (findEntryByKey st item.employeeId item.month item.year).isSome
      then st.nextEntryId else st.nextEntryId + 1 }

/-- Concrete employee for the C5 witness. -/
def empC5 : Employee :=
  { id := "a1", fullName := "Can", isInsured := false, salary := 3000,
    workingDays := 30, endDate := none }

/-- Concrete initial state for the C5 witness. -/
def stC5w : DB :=
  { employees := [empC5], entries := [], overtime := [], nextEntryId := 0,
    nextOtId := 0 }

/-- Concrete overtime creation input for the C5 witness. -/
def inC5 : CreateOvertimeEntryInput :=
  { employeeId := "a1", month := 1, year := 2024, type := .OVERTIME_50,
    multiplier := 3 / 2, hours := 2, amount := 50, description := none }

/-- Concrete payroll row for the C6 witness: its overtime50 field (5) is
smaller than the stored overtime entry amount (10). -/
def entryC6 : PayrollEntry :=
  { id := 7, employeeId := "m1", month := 5, year := 2024, sortOrder := 0,
    daysWorked := 30, advance := 0, officialAdvance := 0, overtime50 := 5,
    overtime100 := 0, officialPayment := 0, cashPayment := 0 }

/-- Concrete overtime entry for the C6 witness. -/
def otC6 : OvertimeEntry :=
  { id := 3, employeeId := "m1", month := 5, year := 2024,
    type := .OVERTIME_50, multiplier := 3 / 2, hours := 4, amount := 10,
    description := none }

/-- Concrete state for the C6 witness. -/
def stC6 : DB :=
  { employees := [], entries := [entryC6], overtime := [otC6],
    nextEntryId := 8, nextOtId := 4 }

/-- Concrete employee for the C3 counterexample. -/
def empC3 : Employee :=
  { id := "a1", fullName := "Can", isInsured := false, salary := 3000,
    workingDays := 30, endDate := none }

/-- Concrete state for the C3 counterexample: one employee, no entries. -/
def stC3 : DB :=
  { employees := [empC3], entries := [], overtime := [], nextEntryId := 0,
    nextOtId := 0 }

/-- C3 batch item whose employeeId resolves to no employee. -/
def itemC3bad : BatchUpdateItem :=
  { employeeId := "zzz", month := 1, year := 2024, daysWorked := some 10,
    advance := none, officialAdvance := none, overtime50 := none,
    overtime100 := none, officialPayment := none, cashPayment := none,
    sortOrder := none }

/-- C3 batch item whose employeeId resolves. -/
def itemC3good : BatchUpdateItem :=
  { employeeId := "a1", month := 1, year := 2024, daysWorked := some 10,
    advance := none, officialAdvance := none, overtime50 := none,
    overtime100 := none, officialPayment := none, cashPayment := none,
    sortOrder := none }

/-- The row created for itemC3good when processed alone. -/
def entryC3res : PayrollEntry :=
  { id := 0, employeeId := "a1", month := 1, year := 2024, sortOrder := 0,
    daysWorked := 10, advance := 0, officialAdvance := 0, overtime50 := 0,
    overtime100 := 0, officialPayment := 0, cashPayment := 1000 }

/-- The response produced for itemC3good when processed alone. -/
def respC3good : PayrollEntryResponse :=
  { id := 0, employeeId := "a1", month := 1, year := 2024, sortOrder := 0,
    daysWorked := 10, advance := 0, officialAdvance := 0, overtime50 := 0,
    overtime100 := 0, officialPayment := 0, cashPayment := 1000,
    dailyWage := 100, earnedSalary := 1000, totalReceivable := 1000,
    employee := empC3 }

/-- Concrete non-insured employee for the C4 counterexample and witness. -/
def empC4x : Employee :=
  { id := "e4", fullName := "Veli", isInsured := false, salary := 3000,
    workingDays := 30, endDate := none }

/-- Concrete stored row for the C4 counterexample: advance 1000 was valid
against the cash base of 30 worked days. -/
def entryC4x : PayrollEntry :=
  { id := 4, employeeId := "e4", month := 3, year := 2024, sortOrder := 0,
    daysWorked := 30, advance := 1000, officialAdvance := 0, overtime50 := 0,
    overtime100 := 0, officialPayment := 0, cashPayment := 2000 }

/-- Concrete state for the C4 counterexample. -/
def stC4x : DB :=
  { employees := [empC4x], entries := [entryC4x], overtime := [],
    nextEntryId := 5, nextOtId := 0 }

/-- C4 counterexample batch item: supplies daysWorked 0 but not advance. -/
def itemC4x : BatchUpdateItem :=
  { employeeId := "e4", month := 3, year := 2024, daysWorked := some 0,
    advance := none, officialAdvance := none, overtime50 := none,
    overtime100 := none, officialPayment := none, cashPayment := none,
    sortOrder := none }

/-- C4 witness batch item: supplies daysWorked 0 and advance 1000. -/
def itemC4w : BatchUpdateItem :=
  { employeeId := "e4", month := 3, year := 2024, daysWorked := some 0,
    advance := some 1000, officialAdvance := none, overtime50 := none,
    overtime100 := none, officialPayment := none, cashPayment := none,
    sortOrder := none }

/-- Concrete employee used by the C8 witness. -/
def empC8w : Employee :=
  { id := "e8", fullName := "Ayse", isInsured := true, salary := 30000,
    workingDays := 30, endDate := none }

/-- Concrete stored payroll row used by the C8 witness. -/
def entryC8w : PayrollEntry :=
  { id := 8, employeeId := "e8", month := 2, year := 2024, sortOrder := 0,
    daysWorked := 30, advance := 0, officialAdvance := 0, overtime50 := 0,
    overtime100 := 0, officialPayment := 28075, cashPayment := 1925 }

/-- Concrete state used by the C8 witness. -/
def stC8w : DB :=
  { employees := [empC8w], entries := [entryC8w], overtime := [],
    nextEntryId := 9, nextOtId := 0 }

/-- First C8 witness input: supplies officialPayment 1 and cashPayment 2. -/
def inputC8a : UpdatePayrollInput :=
  { daysWorked := some 20, advance := none, officialAdvance := none,
    overtime50 := none, overtime100 := none, officialPayment := some 1,
    cashPayment := some 2, sortOrder := none }

/-- Second C8 witness input: same update but officialPayment 777 and
cashPayment absent. -/
def inputC8b : UpdatePayrollInput :=
  { daysWorked := some 20, advance := none, officialAdvance := none,
    overtime50 := none, overtime100 := none, officialPayment := some 777,
    cashPayment := none, sortOrder := none }

/-- Concrete employee used by the C2 witness. -/
def empC2w : Employee :=
  { id := "e1", fullName := "Ali", isInsured := false, salary := 3000,
    workingDays := 30, endDate := none }

/-- Concrete stored payroll row used by the C2 witness. -/
def entryC2w : PayrollEntry :=
  { id := 1, employeeId := "e1", month := 1, year := 2024, sortOrder := 0,
    daysWorked := 30, advance := 100, officialAdvance := 0, overtime50 := 0,
    overtime100 := 0, officialPayment := 0, cashPayment := 0 }

/-- The response computed for the C2 witness row. -/
def respC2w : PayrollEntryResponse :=
  { id := 1, employeeId := "e1", month := 1, year := 2024, sortOrder := 0,
    daysWorked := 30, advance := 100, officialAdvance := 0, overtime50 := 0,
    overtime100 := 0, officialPayment := 0, cashPayment := 2900,
    dailyWage := 100, earnedSalary := 3000, totalReceivable := 2900,
    employee := empC2w }

/-- Concrete insured employee for the C7 witness, active in every period (no
endDate). -/
def empC7a : Employee :=
  { id := "w1", fullName := "Veli", isInsured := true, salary := 30000,
    workingDays := 30, endDate := none }

/-- Concrete employee for the C7 witness whose endDate 2023-12 precedes the
requested period 2024-01. -/
def empC7b : Employee :=
  { id := "w2", fullName := "Ayse", isInsured := false, salary := 12000,
    workingDays := 30, endDate := some { year := 2023, month := 12 } }

/-- Start state of the C7 witness: two employees, no stored payroll rows. -/
def stC7 : DB :=
  { employees := [empC7a, empC7b], entries := [], overtime := [],
    nextEntryId := 100, nextOtId := 0 }

/-- The response computed for the payroll row getPayrollByMonth auto-creates
for empC7a in period 2024-01. -/
def respC7 : PayrollEntryResponse :=
  { id := 100, employeeId := "w1", month := 1, year := 2024, sortOrder := 0,
    daysWorked := 30, advance := 0, officialAdvance := 0, overtime50 := 0,
    overtime100 := 0, officialPayment := 28075, cashPayment := 1925,
    dailyWage := 1000, earnedSalary := 30000, totalReceivable := 30000,
    employee := empC7a }

/-- Invariant carried through sequences of overtime operations: payroll-entry
keys are unique (the database's unique constraint), overtime row ids are
unique and below the fresh counter, every overtime row's key has a payroll
row (the create path upserts one), and per type and key the overtime amounts
sum to the payroll row's overtime field. -/
structure OtInv (st : DB) : Prop where
  entriesKeysNodup : (st.entries.map entryKey).Nodup
  otIdsNodup : (st.overtime.map (fun o => o.id)).Nodup
  otIdsFresh : ∀ o ∈ st.overtime, o.id < st.nextOtId
  otCovered : ∀ o ∈ st.overtime, ∃ e ∈ st.entries, entryKey e = otKey o
  sumsEq : ∀ t k, overtimeSum st t k = payrollFieldSum st t k

/-- Claim C9: calculateDailyWage fails if and only if workingDays ≤ 0 or
salary < 0 and otherwise returns salary / workingDays; calculateEarnedSalary
fails if and only if daysWorked < 0 or dailyWage < 0 and otherwise returns
dailyWage × daysWorked. -/
theorem C9_calc_validation (salary workingDays dailyWage daysWorked : ℚ) :
    ((∃ e, calculateDailyWage salary workingDays = .error e) ↔
      (workingDays ≤ 0 ∨ salary < 0))
    ∧ (0 < workingDays → 0 ≤ salary →
        calculateDailyWage salary workingDays = .ok (salary / workingDays))
    ∧ ((∃ e, calculateEarnedSalary dailyWage daysWorked = .error e) ↔
      (daysWorked < 0 ∨ dailyWage < 0))
    ∧ (0 ≤ daysWorked → 0 ≤ dailyWage →
        calculateEarnedSalary dailyWage daysWorked = .ok (dailyWage * daysWorked)) := by
  refine ⟨?_, ?_, ?_, ?_⟩
  · unfold calculateDailyWage
    split_ifs with h1 h2 <;> simp_all
  · intro h1 h2
    unfold calculateDailyWage
    split_ifs with h3 h4
    · linarith
    · linarith
    · rfl
  · unfold calculateEarnedSalary
    split_ifs with h1 h2 <;> simp_all
  · intro h1 h2
    unfold calculateEarnedSalary
    split_ifs with h3 h4
    · linarith
    · linarith
    · rfl

/-- Witness for C9: a concrete successful run of both calculation functions. -/
theorem C9_calc_validation_witness :
    calculateDailyWage 30000 30 = .ok 1000 ∧ calculateEarnedSalary 1000 30 = .ok 30000 := by
  have h := C9_calc_validation 30000 30 1000 30
  constructor
  · have h2 := h.2.1 (by norm_num) (by norm_num)
    norm_num at h2
    exact h2
  · have h2 := h.2.2.2 (by norm_num) (by norm_num)
    norm_num at h2
    exact h2

/-- Claim C10: for every input with workingDaysBase > 0 — negative overtime,
advances, daysWorked or salary included, insured or not — the split engine's
officialPayment and cashPayment are non-negative. -/
theorem C10_split_nonneg (isInsured : Bool)
    (salary workingDays daysWorked o50 o100 ca oa : ℚ) (hw : 0 < workingDays) :
    0 ≤ (calculateOfficialAndCash isInsured salary workingDays daysWorked o50 o100 ca oa).officialPayment
    ∧ 0 ≤ (calculateOfficialAndCash isInsured salary workingDays daysWorked o50 o100 ca oa).cashPayment := by
  unfold calculateOfficialAndCash
  cases isInsured <;> simp

/-- Witness for C10 at an input with negative daysWorked, overtime and
advances. -/
theorem C10_split_nonneg_witness :
    (0 : ℚ) < 30
    ∧ 0 ≤ (calculateOfficialAndCash true 30000 30 (-5) (-1) (-2) (-3) (-4)).officialPayment
    ∧ 0 ≤ (calculateOfficialAndCash true 30000 30 (-5) (-1) (-2) (-3) (-4)).cashPayment := by
  refine ⟨by norm_num, ?_⟩
  exact C10_split_nonneg true 30000 30 (-5) (-1) (-2) (-3) (-4) (by norm_num)

/-- Counterexample to claim C1 as stated: at salary 0, workingDaysBase 30,
insured, zero days worked and overtime, cash advance -1: the code clamps the
negative advance to 0 and returns cashPayment 0, while the claim's formula
cashPayment = max(0, cashBase − min(cashBase, advance)) gives 1. -/
theorem C1_counterexample :
    calculateOfficialAndCash true 0 30 0 0 0 (-1) 0 ≠ splitSpecC1 true 0 30 0 0 0 (-1) 0 := by
  unfold calculateOfficialAndCash splitSpecC1 FIXED_OFFICIAL_PAYMENT OFFICIAL_WORKING_DAYS_BASE
  norm_num [min_def, max_def, SplitResult.mk.injEq]

/-- Claim C1 (amended): provided the supplied advance and officialAdvance are
non-negative (the engine clamps a negative advance to 0 before the min/max
subtraction, which the claim's raw formulas miss), the split engine computes
exactly the claimed earned/officialBase/cashBase/officialPayment/cashPayment
formulas; and on the stated example (salary 30000, base 30, insured, 30 days,
no overtime, no advances) it returns officialPayment 28075 and cashPayment
1925. -/
theorem C1_split_formula (isInsured : Bool)
    (salary workingDays daysWorked o50 o100 adv oadv : ℚ)
    (hw : 0 < workingDays) (hadv : 0 ≤ adv) (hoadv : 0 ≤ oadv) :
    calculateOfficialAndCash isInsured salary workingDays daysWorked o50 o100 adv oadv
      = splitSpecC1 isInsured salary workingDays daysWorked o50 o100 adv oadv
    ∧ calculateOfficialAndCash true 30000 30 30 0 0 0 0
      = { officialPayment := 28075, cashPayment := 1925 } := by
  constructor
  · have h1 : max 0 adv = adv := max_eq_right hadv
    have h2 : max 0 oadv = oadv := max_eq_right hoadv
    have hE : ∀ x : ℚ, max 0 (max 0 x) = max 0 x :=
      fun x => max_eq_right (le_max_left 0 x)
    unfold calculateOfficialAndCash splitSpecC1
    cases isInsured <;> simp [h1, h2, hE]
  · unfold calculateOfficialAndCash FIXED_OFFICIAL_PAYMENT OFFICIAL_WORKING_DAYS_BASE
    norm_num [min_def, max_def, SplitResult.mk.injEq]

/-- Witness for the amended C1 at the spec's worked example. -/
theorem C1_split_formula_witness :
    (0 : ℚ) < 30 ∧ (0 : ℚ) ≤ 0
    ∧ calculateOfficialAndCash true 30000 30 30 0 0 0 0
        = splitSpecC1 true 30000 30 30 0 0 0 0 := by
  exact ⟨by norm_num, le_refl 0,
    (C1_split_formula true 30000 30 30 0 0 0 0 (by norm_num) (le_refl 0) (le_refl 0)).1⟩

/-- Helper: a successful calculatePayrollFields run produces exactly the
source's dailyWage, earnedSalary and totalReceivable formulas, with the
advance term being the sum of the entry's cash and official advances. -/
theorem calculatePayrollFields_ok_eq (salary workingDays : ℚ) (e : PayrollEntry)
    (res : CalculationResult)
    (h : calculatePayrollFields salary workingDays e = .ok res) :
    res.dailyWage = salary / workingDays
    ∧ res.earnedSalary = salary / workingDays * e.daysWorked
    ∧ res.totalReceivable = salary / workingDays * e.daysWorked
        + e.overtime50 + e.overtime100 - (e.advance + e.officialAdvance) := by
  unfold calculatePayrollFields calculatePayroll at h
  simp only at h
  split_ifs at h with h1 h2 h3 h4 h5 h6 h7 h8
  have hw : (0 : ℚ) < workingDays := not_le.mp h2
  have hs : (0 : ℚ) ≤ salary := not_lt.mp h1
  have hdw : calculateDailyWage salary workingDays = .ok (salary / workingDays) := by
    unfold calculateDailyWage
    rw [if_neg h2, if_neg h1]
  have hwage : (0 : ℚ) ≤ salary / workingDays := div_nonneg hs hw.le
  have hes : calculateEarnedSalary (salary / workingDays) e.daysWorked
      = .ok (salary / workingDays * e.daysWorked) := by
    unfold calculateEarnedSalary
    rw [if_neg h3, if_neg (not_lt.mpr hwage)]
  rw [hdw] at h
  simp only at h
  rw [hes] at h
  simp only [Except.ok.injEq] at h
  subst h
  exact ⟨rfl, rfl, rfl⟩

/-- Claim C2: whenever a payroll entry is read back through the response path,
totalReceivable = earnedSalary + overtime50 + overtime100 − (advance +
officialAdvance) — the subtracted advance term is the sum of the cash and
official advances — and the stored officialPayment/cashPayment values never
enter totalReceivable: any stored values for those two fields that pass the
path leave totalReceivable unchanged. -/
theorem C2_totalReceivable (emp : Employee) (e : PayrollEntry) (r : PayrollEntryResponse)
    (h : transformToResponse emp e = .ok r) :
    r.totalReceivable = r.earnedSalary + e.overtime50 + e.overtime100
        - (e.advance + e.officialAdvance)
    ∧ ∀ op cp r', transformToResponse emp
          { e with officialPayment := op, cashPayment := cp } = .ok r' →
        r'.totalReceivable = r.totalReceivable := by
  unfold transformToResponse at h
  cases hc : calculatePayrollFields emp.salary emp.workingDays e with
  | error m => rw [hc] at h; exact absurd h (by simp)
  | ok calcs =>
    rw [hc] at h
    simp only [Except.ok.injEq] at h
    subst h
    have hk := calculatePayrollFields_ok_eq _ _ _ _ hc
    constructor
    · simp only [hk.2.1, hk.2.2]
    · intro op cp r' h'
      unfold transformToResponse at h'
      cases hc' : calculatePayrollFields emp.salary emp.workingDays
          { e with officialPayment := op, cashPayment := cp } with
      | error m => rw [hc'] at h'; exact absurd h' (by simp)
      | ok calcs' =>
        rw [hc'] at h'
        simp only [Except.ok.injEq] at h'
        subst h'
        have hk' := calculatePayrollFields_ok_eq _ _ _ _ hc'
        simp only [hk.2.2, hk'.2.2]

/-- Witness for C2: a concrete read of a stored row through the response
path. -/
theorem C2_totalReceivable_witness :
    transformToResponse empC2w entryC2w = .ok respC2w
    ∧ respC2w.totalReceivable = respC2w.earnedSalary + entryC2w.overtime50
        + entryC2w.overtime100 - (entryC2w.advance + entryC2w.officialAdvance) := by
  have h : transformToResponse empC2w entryC2w = .ok respC2w := by
    unfold transformToResponse calculatePayrollFields calculatePayroll
      calculateDailyWage calculateEarnedSalary calculateTotalReceivable
      calculateOfficialAndCash empC2w entryC2w respC2w
    norm_num [min_def, max_def]
    rfl
  exact ⟨h, (C2_totalReceivable empC2w entryC2w respC2w h).1⟩

/-- Helper: after replaceEntryById on an id that was findable, find? on that id
returns the replacement row (whose id is unchanged). -/
theorem find_replaceEntryById (i : Nat) (u : PayrollEntry) (hu : u.id = i) :
    ∀ l : List PayrollEntry, (∃ old, l.find? (fun e => decide (e.id = i)) = some old) →
    (replaceEntryById i u l).find? (fun e => decide (e.id = i)) = some u := by
  intro l
  induction l with
  | nil =>
    rintro ⟨old, h⟩
    simp at h
  | cons e rest ih =>
    rintro ⟨old, h⟩
    unfold replaceEntryById
    by_cases he : e.id = i
    · rw [if_pos he]
      exact List.find?_cons_of_pos _ (by simp [hu])
    · rw [if_neg he]
      rw [List.find?_cons_of_neg _ (by simp [he])]
      apply ih
      rw [List.find?_cons_of_neg _ (by simp [he])] at h
      exact ⟨old, h⟩

/-- Claim C8: updatePayroll's persisted officialPayment/cashPayment are the
split engine's output on the persisted merged fields, whatever
officialPayment/cashPayment the caller supplied: two calls on the same stored
state whose (schema-valid) inputs differ only in those two supplied fields
behave identically, and on success the stored row's payment fields equal the
engine applied to the row's own merged daysWorked/overtime/advance values. -/
theorem C8_payments_not_settable (st : DB) (i : Nat) (i1 i2 : UpdatePayrollInput)
    (hdw : i1.daysWorked = i2.daysWorked) (hadv : i1.advance = i2.advance)
    (hoadv : i1.officialAdvance = i2.officialAdvance)
    (h50 : i1.overtime50 = i2.overtime50) (h100 : i1.overtime100 = i2.overtime100)
    (hso : i1.sortOrder = i2.sortOrder)
    (h1op : validOptNonneg i1.officialPayment = true)
    (h1cp : validOptNonneg i1.cashPayment = true)
    (h2op : validOptNonneg i2.officialPayment = true)
    (h2cp : validOptNonneg i2.cashPayment = true) :
    updatePayroll st i i1 = updatePayroll st i i2
    ∧ ∀ old emp st' r, updatePayroll st i i1 = (st', .ok r) →
        findEntryById st i = some old →
        lookupEmployee st old.employeeId = some emp →
        findEntryById st' i = some (applyUpdate emp old i1)
        ∧ (applyUpdate emp old i1).officialPayment
            = (calculateOfficialAndCash emp.isInsured emp.salary emp.workingDays
                (applyUpdate emp old i1).daysWorked (applyUpdate emp old i1).overtime50
                (applyUpdate emp old i1).overtime100 (applyUpdate emp old i1).advance
                (applyUpdate emp old i1).officialAdvance).officialPayment
        ∧ (applyUpdate emp old i1).cashPayment
            = (calculateOfficialAndCash emp.isInsured emp.salary emp.workingDays
                (applyUpdate emp old i1).daysWorked (applyUpdate emp old i1).overtime50
                (applyUpdate emp old i1).overtime100 (applyUpdate emp old i1).advance
                (applyUpdate emp old i1).officialAdvance).cashPayment := by
  have happ : ∀ emp old, applyUpdate emp old i1 = applyUpdate emp old i2 := by
    intro emp old
    unfold applyUpdate
    rw [hdw, hadv, hoadv, h50, h100, hso]
  have hparse : parseUpdatePayroll i1 = parseUpdatePayroll i2 := by
    unfold parseUpdatePayroll
    rw [hdw, hadv, hoadv, h50, h100, hso, h1op, h1cp, h2op, h2cp]
  constructor
  · unfold updatePayroll
    simp only [hparse, happ]
  · intro old emp st' r hrun hfind hemp
    unfold updatePayroll at hrun
    rw [hfind] at hrun
    split at hrun
    next hl => simp at hl
    next existing hl =>
      injection hl with hl
      subst hl
      split at hrun
      next hl2 =>
        rw [hemp] at hl2
        simp at hl2
      next emp' hl2 =>
        rw [hemp] at hl2
        injection hl2 with hl2
        subst hl2
        split at hrun
        next hp =>
          split at hrun
          next m htr =>
            simp at hrun
          next r0 htr =>
            simp only [Prod.mk.injEq, Except.ok.injEq] at hrun
            obtain ⟨hst, hr⟩ := hrun
            subst hst
            refine ⟨?_, rfl, rfl⟩
            have hold : old.id = i := by
              unfold findEntryById at hfind
              have hfs := List.find?_some hfind
              exact of_decide_eq_true hfs
            exact find_replaceEntryById i (applyUpdate emp old i1)
              (by rw [show (applyUpdate emp old i1).id = old.id from rfl]; exact hold)
              st.entries ⟨old, hfind⟩
        next hp =>
          simp at hrun

/-- Witness for C8: two concrete updates differing only in the supplied
officialPayment/cashPayment behave identically. -/
theorem C8_payments_not_settable_witness :
    validOptNonneg inputC8a.officialPayment = true
    ∧ validOptNonneg inputC8a.cashPayment = true
    ∧ validOptNonneg inputC8b.officialPayment = true
    ∧ validOptNonneg inputC8b.cashPayment = true
    ∧ updatePayroll stC8w 8 inputC8a = updatePayroll stC8w 8 inputC8b := by
  have h1 : validOptNonneg inputC8a.officialPayment = true := by
    norm_num [inputC8a, validOptNonneg]
  have h2 : validOptNonneg inputC8a.cashPayment = true := by
    norm_num [inputC8a, validOptNonneg]
  have h3 : validOptNonneg inputC8b.officialPayment = true := by
    norm_num [inputC8b, validOptNonneg]
  have h4 : validOptNonneg inputC8b.cashPayment = true := by
    norm_num [inputC8b, validOptNonneg]
  exact ⟨h1, h2, h3, h4,
    (C8_payments_not_settable stC8w 8 inputC8a inputC8b rfl rfl rfl rfl rfl rfl
      h1 h2 h3 h4).1⟩

/-- Helper: both recomputed bases are non-negative. -/
theorem recomputeBases_nonneg (emp : Employee) (dW o50 o100 : ℚ) :
    0 ≤ (recomputeBases emp dW o50 o100).1 ∧ 0 ≤ (recomputeBases emp dW o50 o100).2 := by
  unfold recomputeBases
  cases h : emp.isInsured <;>
    simp only [h, Bool.false_eq_true, if_false, if_true] <;>
    constructor
  · exact le_refl 0
  · have h1 : (0 : ℚ) ≤ max 0 (max 0 (emp.salary / emp.workingDays * dW) - 0) := le_max_left 0 _
    have h2 : (0 : ℚ) ≤ max 0 o50 := le_max_left 0 _
    have h3 : (0 : ℚ) ≤ max 0 o100 := le_max_left 0 _
    linarith
  · exact le_min (le_max_left 0 _) (le_max_left 0 _)
  · have h1 : (0 : ℚ) ≤ max 0 (max 0 (emp.salary / emp.workingDays * dW)
        - min (max 0 (emp.salary / emp.workingDays * dW))
            (max 0 (FIXED_OFFICIAL_PAYMENT / OFFICIAL_WORKING_DAYS_BASE * dW))) := le_max_left 0 _
    have h2 : (0 : ℚ) ≤ max 0 o50 := le_max_left 0 _
    have h3 : (0 : ℚ) ≤ max 0 o100 := le_max_left 0 _
    linarith

/-- Helper: clamping a value into [0, b] lands in [0, b]. -/
theorem clamp_nonneg_le (x b : ℚ) (hb : 0 ≤ b) :
    0 ≤ min (max 0 x) b ∧ min (max 0 x) b ≤ b :=
  ⟨le_min (le_max_left 0 x) hb, min_le_right _ _⟩

/-- Claim C4 (amended): the row written by updatePayroll always carries
advance ∈ [0, recomputed cashBase] and officialAdvance ∈ [0, recomputed
officialBase] (0 when not insured), the bases being recomputed from the
written (merged) daysWorked/overtime values. For a batch item the same bounds
hold for the advance (resp. officialAdvance) field only when that item itself
supplies the field or creates the row; an item that merely supplies daysWorked
leaves a previously stored advance in place, which may exceed the freshly
recomputed base (see the counterexample). -/
theorem C4_advance_clamp :
    (∀ (emp : Employee) (ex : PayrollEntry) (v : UpdatePayrollInput),
      0 ≤ (applyUpdate emp ex v).advance
      ∧ (applyUpdate emp ex v).advance
          ≤ (recomputeBases emp (applyUpdate emp ex v).daysWorked
              (applyUpdate emp ex v).overtime50 (applyUpdate emp ex v).overtime100).2
      ∧ 0 ≤ (applyUpdate emp ex v).officialAdvance
      ∧ (applyUpdate emp ex v).officialAdvance
          ≤ (recomputeBases emp (applyUpdate emp ex v).daysWorked
              (applyUpdate emp ex v).overtime50 (applyUpdate emp ex v).overtime100).1
      ∧ (emp.isInsured = false → (applyUpdate emp ex v).officialAdvance = 0))
    ∧ (∀ (emp : Employee) (existing : Option PayrollEntry) (newId : Nat)
            (item : BatchUpdateItem),
        ((item.advance.isSome = true ∨ existing = none) →
          0 ≤ (applyBatchItem emp existing newId item).advance
          ∧ (applyBatchItem emp existing newId item).advance
              ≤ (recomputeBases emp (applyBatchItem emp existing newId item).daysWorked
                  (applyBatchItem emp existing newId item).overtime50
                  (applyBatchItem emp existing newId item).overtime100).2)
        ∧ ((item.officialAdvance.isSome = true ∨ existing = none) →
          0 ≤ (applyBatchItem emp existing newId item).officialAdvance
          ∧ (applyBatchItem emp existing newId item).officialAdvance
              ≤ (recomputeBases emp (applyBatchItem emp existing newId item).daysWorked
                  (applyBatchItem emp existing newId item).overtime50
                  (applyBatchItem emp existing newId item).overtime100).1
          ∧ (emp.isInsured = false →
              (applyBatchItem emp existing newId item).officialAdvance = 0))) := by
  constructor
  · intro emp ex v
    unfold applyUpdate
    simp only
    have hb := recomputeBases_nonneg emp (v.daysWorked.getD ex.daysWorked)
      (v.overtime50.getD ex.overtime50) (v.overtime100.getD ex.overtime100)
    have hc := clamp_nonneg_le (v.advance.getD ex.advance) _ hb.2
    refine ⟨hc.1, hc.2, ?_, ?_, ?_⟩
    · cases h : emp.isInsured <;> simp only [h, Bool.false_eq_true, if_false, if_true]
      · exact le_refl 0
      · exact (clamp_nonneg_le (v.officialAdvance.getD ex.officialAdvance) _ hb.1).1
    · cases h : emp.isInsured <;> simp only [h, Bool.false_eq_true, if_false, if_true]
      · exact hb.1
      · exact (clamp_nonneg_le (v.officialAdvance.getD ex.officialAdvance) _ hb.1).2
    · intro h
      simp only [h, Bool.false_eq_true, if_false]
  · intro emp existing newId item
    cases existing with
    | none =>
      constructor
      · intro _
        unfold applyBatchItem
        simp only [ite_self, Option.map_none', Option.getD_none]
        have hb := recomputeBases_nonneg emp (item.daysWorked.getD 0)
          (item.overtime50.getD 0) (item.overtime100.getD 0)
        have hc := clamp_nonneg_le (item.advance.getD 0) _ hb.2
        exact ⟨hc.1, hc.2⟩
      · intro _
        unfold applyBatchItem
        simp only [ite_self, Option.map_none', Option.getD_none]
        have hb := recomputeBases_nonneg emp (item.daysWorked.getD 0)
          (item.overtime50.getD 0) (item.overtime100.getD 0)
        refine ⟨?_, ?_, ?_⟩
        · cases h : emp.isInsured <;> simp only [h, Bool.false_eq_true, if_false, if_true]
          · exact le_refl 0
          · exact (clamp_nonneg_le (item.officialAdvance.getD 0) _ hb.1).1
        · cases h : emp.isInsured <;> simp only [h, Bool.false_eq_true, if_false, if_true]
          · exact hb.1
          · exact (clamp_nonneg_le (item.officialAdvance.getD 0) _ hb.1).2
        · intro h
          simp only [h, Bool.false_eq_true, if_false]
    | some old =>
      constructor
      · rintro (hs | hno)
        case inr => cases hno
        unfold applyBatchItem
        simp only [hs, Bool.or_true, Bool.true_or, eq_self_iff_true, if_true,
          Option.map_some', Option.getD_some]
        have hb := recomputeBases_nonneg emp (item.daysWorked.getD old.daysWorked)
          (item.overtime50.getD old.overtime50) (item.overtime100.getD old.overtime100)
        have hc := clamp_nonneg_le (item.advance.getD old.advance) _ hb.2
        exact ⟨hc.1, hc.2⟩
      · rintro (hs | hno)
        case inr => cases hno
        unfold applyBatchItem
        simp only [hs, Bool.or_true, Bool.true_or, eq_self_iff_true, if_true,
          Option.map_some', Option.getD_some]
        have hb := recomputeBases_nonneg emp (item.daysWorked.getD old.daysWorked)
          (item.overtime50.getD old.overtime50) (item.overtime100.getD old.overtime100)
        refine ⟨?_, ?_, ?_⟩
        · cases h : emp.isInsured <;> simp only [h, Bool.false_eq_true, if_false, if_true]
          · exact le_refl 0
          · exact (clamp_nonneg_le (item.officialAdvance.getD old.officialAdvance) _ hb.1).1
        · cases h : emp.isInsured <;> simp only [h, Bool.false_eq_true, if_false, if_true]
          · exact hb.1
          · exact (clamp_nonneg_le (item.officialAdvance.getD old.officialAdvance) _ hb.1).2
        · intro h
          simp only [h, Bool.false_eq_true, if_false]

/-- Helper: one batchLoop step whose employee resolves. -/
theorem batchLoop_cons (st : DB) (item : BatchUpdateItem) (rest : List BatchUpdateItem)
    (emp : Employee) (hemp : lookupEmployee st item.employeeId = some emp) :
    batchLoop st (item :: rest)
      = (match transformToResponse emp (applyBatchItem emp
            (findEntryByKey st item.employeeId item.month item.year)
            st.nextEntryId item) with
         | .error m => (batchStepState st emp item, .error (errInternal m))
         | .ok r =>
           match batchLoop (batchStepState st emp item) rest with
           | (st'', .error e) => (st'', .error e)
           | (st'', .ok rs) => (st'', .ok (r :: rs))) := by
  conv_lhs => unfold batchLoop
  rw [hemp]
  rfl

/-- Helper: one batchLoop step whose employee is missing throws
EMPLOYEE_NOT_FOUND, ending the loop with the state unchanged. -/
theorem batchLoop_cons_none (st : DB) (item : BatchUpdateItem)
    (rest : List BatchUpdateItem)
    (hemp : lookupEmployee st item.employeeId = none) :
    batchLoop st (item :: rest) = (st, .error (errEmployeeNotFound item.employeeId)) := by
  unfold batchLoop
  rw [hemp]

/-- Counterexample to claim C4 as stated: a batch item supplying only
daysWorked (set to 0) on a stored row with advance 1000 persists the stale
advance 1000 unchanged, while the cash base recomputed from the merged values
is 0 — so the persisted advance exceeds the recomputed cashBase. -/
theorem C4_counterexample :
    itemC4x.daysWorked.isSome = true
    ∧ (batchUpdatePayroll stC4x [itemC4x]).1.entries
        = [applyBatchItem empC4x (some entryC4x) 5 itemC4x]
    ∧ (applyBatchItem empC4x (some entryC4x) 5 itemC4x).advance = 1000
    ∧ (recomputeBases empC4x (applyBatchItem empC4x (some entryC4x) 5 itemC4x).daysWorked
        (applyBatchItem empC4x (some entryC4x) 5 itemC4x).overtime50
        (applyBatchItem empC4x (some entryC4x) 5 itemC4x).overtime100).2 = 0
    ∧ ¬ ((applyBatchItem empC4x (some entryC4x) 5 itemC4x).advance
        ≤ (recomputeBases empC4x (applyBatchItem empC4x (some entryC4x) 5 itemC4x).daysWorked
            (applyBatchItem empC4x (some entryC4x) 5 itemC4x).overtime50
            (applyBatchItem empC4x (some entryC4x) 5 itemC4x).overtime100).2) := by
  have hall : [itemC4x].all parseBatchItem = true := by decide
  have hu : applyBatchItem empC4x (some entryC4x) 5 itemC4x
      = { entryC4x with daysWorked := 0, cashPayment := 0 } := by
    unfold applyBatchItem itemC4x empC4x entryC4x recomputeBases calculateOfficialAndCash
      FIXED_OFFICIAL_PAYMENT OFFICIAL_WORKING_DAYS_BASE
    norm_num [min_def, max_def]
  have hstep : (batchUpdatePayroll stC4x [itemC4x]).1.entries
      = [applyBatchItem empC4x (some entryC4x) 5 itemC4x] := by
    unfold batchUpdatePayroll
    rw [if_pos hall]
    rw [batchLoop_cons stC4x itemC4x [] empC4x rfl]
    rw [show findEntryByKey stC4x itemC4x.employeeId itemC4x.month itemC4x.year
        = some entryC4x from rfl]
    cases htr : transformToResponse empC4x (applyBatchItem empC4x (some entryC4x)
        stC4x.nextEntryId itemC4x) with
    | error m => rfl
    | ok r => rfl
  refine ⟨rfl, hstep, ?_, ?_, ?_⟩
  · rw [hu]
    rfl
  · rw [hu]
    unfold recomputeBases empC4x entryC4x FIXED_OFFICIAL_PAYMENT OFFICIAL_WORKING_DAYS_BASE
    norm_num [min_def, max_def]
  · rw [hu]
    unfold recomputeBases empC4x entryC4x FIXED_OFFICIAL_PAYMENT OFFICIAL_WORKING_DAYS_BASE
    norm_num [min_def, max_def]

/-- Witness for the amended C4: a batch item that does supply advance gets it
clamped into [0, recomputed cashBase]. -/
theorem C4_advance_clamp_witness :
    itemC4w.advance.isSome = true
    ∧ 0 ≤ (applyBatchItem empC4x (some entryC4x) 5 itemC4w).advance
    ∧ (applyBatchItem empC4x (some entryC4x) 5 itemC4w).advance
        ≤ (recomputeBases empC4x (applyBatchItem empC4x (some entryC4x) 5 itemC4w).daysWorked
            (applyBatchItem empC4x (some entryC4x) 5 itemC4w).overtime50
            (applyBatchItem empC4x (some entryC4x) 5 itemC4w).overtime100).2 := by
  have h := (C4_advance_clamp.2 empC4x (some entryC4x) 5 itemC4w).1 (Or.inl rfl)
  exact ⟨rfl, h.1, h.2⟩

/-- Helper: if the items processed so far all succeeded and a later item's
employee is missing from the state's employee table, the loop ends with the
EMPLOYEE_NOT_FOUND error, keeping the state reached before the failing item
and dropping every response. -/
theorem batchLoop_abort (bad : BatchUpdateItem) (post : List BatchUpdateItem) :
    ∀ (pre : List BatchUpdateItem) (st st1 : DB) (rs : List PayrollEntryResponse),
    batchLoop st pre = (st1, .ok rs) →
    lookupEmployee st bad.employeeId = none →
    batchLoop st (pre ++ bad :: post)
      = (st1, .error (errEmployeeNotFound bad.employeeId)) := by
  intro pre
  induction pre with
  | nil =>
    intro st st1 rs hpre hbad
    unfold batchLoop at hpre
    simp only [Prod.mk.injEq] at hpre
    obtain ⟨h1, _⟩ := hpre
    subst h1
    exact batchLoop_cons_none st bad post hbad
  | cons p pre ih =>
    intro st st1 rs hpre hbad
    cases hemp : lookupEmployee st p.employeeId with
    | none =>
      rw [batchLoop_cons_none st p pre hemp] at hpre
      simp at hpre
    | some emp =>
      rw [batchLoop_cons st p pre emp hemp] at hpre
      rw [show ((p :: pre) ++ bad :: post) = p :: (pre ++ bad :: post) from rfl]
      rw [batchLoop_cons st p (pre ++ bad :: post) emp hemp]
      cases htr : transformToResponse emp (applyBatchItem emp
          (findEntryByKey st p.employeeId p.month p.year) st.nextEntryId p) with
      | error m =>
        rw [htr] at hpre
        simp at hpre
      | ok r =>
        rw [htr] at hpre
        dsimp only at hpre ⊢
        cases hb : batchLoop (batchStepState st emp p) pre with
        | mk st2 res2 =>
          rw [hb] at hpre
          cases res2 with
          | error e => simp at hpre
          | ok rs2 =>
            simp only [Prod.mk.injEq, Except.ok.injEq] at hpre
            obtain ⟨h1, _⟩ := hpre
            have hbad' : lookupEmployee (batchStepState st emp p) bad.employeeId
                = none := hbad
            rw [ih (batchStepState st emp p) st2 rs2 hb hbad']
            rw [h1]

/-- Claim C3 (amended): batchUpdate does NOT fail per-item: the first item
whose employeeId resolves to no employee throws EMPLOYEE_NOT_FOUND, aborting
the whole call — items before it stay persisted (their upserts were separate
committed writes), the failing item and every item after it are not applied,
and no responses are returned. -/
theorem C3_batch_abort (st : DB) (pre : List BatchUpdateItem) (bad : BatchUpdateItem)
    (post : List BatchUpdateItem) (st1 : DB) (rs : List PayrollEntryResponse)
    (hparse : (pre ++ bad :: post).all parseBatchItem = true)
    (hpre : batchLoop st pre = (st1, .ok rs))
    (hbad : lookupEmployee st bad.employeeId = none) :
    batchUpdatePayroll st (pre ++ bad :: post)
      = (st1, .error (errEmployeeNotFound bad.employeeId)) := by
  unfold batchUpdatePayroll
  rw [if_pos hparse]
  exact batchLoop_abort bad post pre st st1 rs hpre hbad

/-- Witness for the amended C3 at a concrete batch. -/
theorem C3_batch_abort_witness :
    ([] ++ itemC3bad :: [itemC3good]).all parseBatchItem = true
    ∧ batchLoop stC3 [] = (stC3, .ok [])
    ∧ lookupEmployee stC3 itemC3bad.employeeId = none
    ∧ batchUpdatePayroll stC3 ([] ++ itemC3bad :: [itemC3good])
        = (stC3, .error (errEmployeeNotFound itemC3bad.employeeId)) := by
  refine ⟨by decide, rfl, rfl, ?_⟩
  exact C3_batch_abort stC3 [] itemC3bad [itemC3good] stC3 [] (by decide) rfl rfl

/-- Counterexample to claim C3 as stated: the batch [missing-employee item,
valid item] returns the EMPLOYEE_NOT_FOUND error for the whole call with the
state unchanged — the valid second item is not processed and its result is
lost — although the same valid item succeeds when sent alone. -/
theorem C3_counterexample :
    batchUpdatePayroll stC3 [itemC3bad, itemC3good]
      = (stC3, .error (errEmployeeNotFound "zzz"))
    ∧ batchUpdatePayroll stC3 [itemC3good]
        = (batchStepState stC3 empC3 itemC3good, .ok [respC3good])
    ∧ (batchStepState stC3 empC3 itemC3good).entries = [entryC3res]
    ∧ stC3.entries = [] := by
  have hu : applyBatchItem empC3 none 0 itemC3good = entryC3res := by
    unfold applyBatchItem itemC3good empC3 entryC3res recomputeBases
      calculateOfficialAndCash FIXED_OFFICIAL_PAYMENT OFFICIAL_WORKING_DAYS_BASE
    norm_num [min_def, max_def]
  have htr : transformToResponse empC3 entryC3res = .ok respC3good := by
    unfold transformToResponse calculatePayrollFields calculatePayroll
      calculateDailyWage calculateEarnedSalary calculateTotalReceivable
      calculateOfficialAndCash empC3 entryC3res respC3good
      FIXED_OFFICIAL_PAYMENT OFFICIAL_WORKING_DAYS_BASE
    norm_num [min_def, max_def]
    rfl
  refine ⟨?_, ?_, ?_, rfl⟩
  · unfold batchUpdatePayroll
    rw [if_pos (by decide : ([itemC3bad, itemC3good]).all parseBatchItem = true)]
    exact batchLoop_cons_none stC3 itemC3bad [itemC3good] rfl
  · unfold batchUpdatePayroll
    rw [if_pos (by decide : ([itemC3good]).all parseBatchItem = true)]
    rw [batchLoop_cons stC3 itemC3good [] empC3 rfl]
    rw [show findEntryByKey stC3 itemC3good.employeeId itemC3good.month
        itemC3good.year = none from rfl]
    rw [show stC3.nextEntryId = 0 from rfl]
    rw [hu, htr]
    rfl
  · rw [show (batchStepState stC3 empC3 itemC3good).entries
        = [applyBatchItem empC3 none 0 itemC3good] from rfl]
    rw [hu]

/-- Helper: applying a key-preserving, field-shifting update to every row with
key k0 changes the summed field at key k by (number of k0 rows) × d when
k = k0, and not at all otherwise. -/
theorem fieldSum_map_update (t : OvertimeType) (k k0 : String × Nat × Nat)
    (f : PayrollEntry → PayrollEntry) (d : ℚ)
    (hkey : ∀ e, entryKey (f e) = entryKey e)
    (hfield : ∀ e, entryField t (f e) = entryField t e + d) :
    ∀ l : List PayrollEntry,
      ((l.map (fun e => if entryKey e = k0 then f e else e)).map
          (fun e => if entryKey e = k then entryField t e else 0)).sum
        = (l.map (fun e => if entryKey e = k then entryField t e else 0)).sum
          + (if k = k0 then (l.countP (fun e => decide (entryKey e = k0)) : ℚ) * d
             else 0) := by
  intro l
  induction l with
  | nil => simp
  | cons e l ih =>
    simp only [List.map_cons, List.sum_cons, List.countP_cons, ih]
    by_cases he0 : entryKey e = k0
    · have hc1 : (if decide (entryKey e = k0) = true then (1 : Nat) else 0) = 1 := by
        simp [he0]
      rw [if_pos he0, hc1]
      by_cases hkk0 : k = k0
      · have hek : entryKey e = k := by rw [hkk0]; exact he0
        have hek' : entryKey (f e) = k := by rw [hkey e]; exact hek
        rw [if_pos hek', if_pos hek, hfield e, if_pos hkk0, if_pos hkk0]
        push_cast
        ring
      · have hek : ¬ entryKey e = k := by
          intro h
          exact hkk0 (by rw [← h, he0])
        have hek' : ¬ entryKey (f e) = k := by rw [hkey e]; exact hek
        rw [if_neg hek', if_neg hek, if_neg hkk0, if_neg hkk0]
        ring
    · have hc0 : (if decide (entryKey e = k0) = true then (1 : Nat) else 0) = 0 := by
        simp [he0]
      rw [if_neg he0, hc0]
      by_cases hkk0 : k = k0
      · rw [if_pos hkk0, if_pos hkk0]
        push_cast
        ring
      · rw [if_neg hkk0, if_neg hkk0]
        ring

/-- Claim C6: deleting an existing overtime entry succeeds and decrements the
matching payroll row's overtime field (of the entry's type) by exactly the
stored amount, with no clamping at zero: if the field was smaller than the
amount, the stored field goes negative. (payrollFieldSum is the field of the
unique matching row, by the countP = 1 hypothesis.) -/
theorem C6_delete_decrement (st : DB) (i : Nat) (o : OvertimeEntry)
    (hfind : st.overtime.find? (fun x => decide (x.id = i)) = some o)
    (hone : st.entries.countP (fun e => decide (entryKey e = otKey o)) = 1) :
    (deleteOvertimeEntry st i).2 = .ok ()
    ∧ payrollFieldSum (deleteOvertimeEntry st i).1 o.type (otKey o)
        = payrollFieldSum st o.type (otKey o) - o.amount
    ∧ (payrollFieldSum st o.type (otKey o) < o.amount →
        payrollFieldSum (deleteOvertimeEntry st i).1 o.type (otKey o) < 0) := by
  have hdel : deleteOvertimeEntry st i
      = ({ st with
            overtime := st.overtime.filter (fun x => decide (¬ x.id = i))
            entries := st.entries.map (fun e =>
              if entryKey e = otKey o then
                (match o.type with
                 | .OVERTIME_50 => { e with overtime50 := e.overtime50 - o.amount }
                 | .OVERTIME_100 => { e with overtime100 := e.overtime100 - o.amount })
              else e) },
          .ok ()) := by
    unfold deleteOvertimeEntry
    rw [hfind]
  have heq : payrollFieldSum (deleteOvertimeEntry st i).1 o.type (otKey o)
      = payrollFieldSum st o.type (otKey o) - o.amount := by
    rw [hdel]
    unfold payrollFieldSum
    dsimp only
    cases ht : o.type with
    | OVERTIME_50 =>
      rw [fieldSum_map_update .OVERTIME_50 (otKey o) (otKey o)
        (fun e => { e with overtime50 := e.overtime50 - o.amount }) (-o.amount)
        (fun e => rfl)
        (fun e => by
          simp only [entryField]
          ring)
        st.entries]
      rw [if_pos rfl, hone]
      push_cast
      ring
    | OVERTIME_100 =>
      rw [fieldSum_map_update .OVERTIME_100 (otKey o) (otKey o)
        (fun e => { e with overtime100 := e.overtime100 - o.amount }) (-o.amount)
        (fun e => rfl)
        (fun e => by
          simp only [entryField]
          ring)
        st.entries]
      rw [if_pos rfl, hone]
      push_cast
      ring
  refine ⟨by rw [hdel], heq, ?_⟩
  intro h
  rw [heq]
  linarith

/-- Witness for C6: deleting a 10-lira overtime entry whose payroll row holds
only 5 produces the negative residual -5. -/
theorem C6_delete_decrement_witness :
    stC6.overtime.find? (fun x => decide (x.id = 3)) = some otC6
    ∧ stC6.entries.countP (fun e => decide (entryKey e = otKey otC6)) = 1
    ∧ payrollFieldSum stC6 otC6.type (otKey otC6) < otC6.amount
    ∧ payrollFieldSum (deleteOvertimeEntry stC6 3).1 otC6.type (otKey otC6)
        = payrollFieldSum stC6 otC6.type (otKey otC6) - otC6.amount
    ∧ payrollFieldSum (deleteOvertimeEntry stC6 3).1 otC6.type (otKey otC6) < 0 := by
  have h1 : stC6.overtime.find? (fun x => decide (x.id = 3)) = some otC6 := rfl
  have h2 : stC6.entries.countP (fun e => decide (entryKey e = otKey otC6)) = 1 := by
    decide
  have h3 : payrollFieldSum stC6 otC6.type (otKey otC6) < otC6.amount := by
    unfold payrollFieldSum stC6 entryC6 otC6 otKey entryKey entryField
    norm_num
  have hmain := C6_delete_decrement stC6 3 otC6 h1 h2
  exact ⟨h1, h2, h3, hmain.2.1, hmain.2.2 h3⟩

/-- Helper: every key in an upsert result is an old key or the upserted key. -/
theorem upsert_keys_subset (k : String × Nat × Nat) (upd : PayrollEntry → PayrollEntry)
    (c : PayrollEntry) (hupd : ∀ e, entryKey (upd e) = entryKey e)
    (hc : entryKey c = k) :
    ∀ (l : List PayrollEntry) (x : String × Nat × Nat),
      x ∈ (upsertEntryByKey k upd c l).map entryKey → x ∈ l.map entryKey ∨ x = k := by
  intro l
  induction l with
  | nil =>
    intro x hx
    simp only [upsertEntryByKey, List.map_cons, List.map_nil, List.mem_singleton] at hx
    right
    rw [hx, hc]
  | cons e l ih =>
    intro x hx
    unfold upsertEntryByKey at hx
    by_cases he : entryKey e = k
    · rw [if_pos he] at hx
      simp only [List.map_cons, List.mem_cons, hupd] at hx
      rcases hx with hx | hx
      · left
        simp only [List.map_cons, List.mem_cons]
        left
        exact hx
      · left
        simp only [List.map_cons, List.mem_cons]
        right
        exact hx
    · rw [if_neg he] at hx
      simp only [List.map_cons, List.mem_cons] at hx ⊢
      rcases hx with hx | hx
      · left
        left
        exact hx
      · rcases ih x hx with h | h
        · left
          right
          exact h
        · right
          exact h

/-- Helper: upserting preserves uniqueness of payroll-entry keys. -/
theorem upsert_keys_nodup (k : String × Nat × Nat) (upd : PayrollEntry → PayrollEntry)
    (c : PayrollEntry) (hupd : ∀ e, entryKey (upd e) = entryKey e)
    (hc : entryKey c = k) :
    ∀ l : List PayrollEntry, (l.map entryKey).Nodup →
      ((upsertEntryByKey k upd c l).map entryKey).Nodup := by
  intro l
  induction l with
  | nil =>
    intro _
    simp [upsertEntryByKey]
  | cons e l ih =>
    intro hnd
    rw [List.map_cons, List.nodup_cons] at hnd
    unfold upsertEntryByKey
    by_cases he : entryKey e = k
    · rw [if_pos he]
      simp only [List.map_cons, List.nodup_cons, hupd]
      exact ⟨hnd.1, hnd.2⟩
    · rw [if_neg he]
      simp only [List.map_cons, List.nodup_cons]
      refine ⟨?_, ih hnd.2⟩
      intro hmem
      rcases upsert_keys_subset k upd c hupd hc l _ hmem with h | h
      · exact hnd.1 h
      · exact he h

/-- Helper: an existing key is still present after an upsert. -/
theorem upsert_key_mem_of_mem (k : String × Nat × Nat)
    (upd : PayrollEntry → PayrollEntry) (c : PayrollEntry)
    (hupd : ∀ e, entryKey (upd e) = entryKey e) :
    ∀ (l : List PayrollEntry) (key' : String × Nat × Nat),
      (∃ e ∈ l, entryKey e = key') →
      ∃ e' ∈ upsertEntryByKey k upd c l, entryKey e' = key' := by
  intro l
  induction l with
  | nil =>
    rintro key' ⟨e, he, _⟩
    simp at he
  | cons e l ih =>
    rintro key' ⟨e', he', hk⟩
    unfold upsertEntryByKey
    by_cases he : entryKey e = k
    · rw [if_pos he]
      rcases List.mem_cons.mp he' with rfl | hmem
      · exact ⟨upd e', List.mem_cons_self _ _, by rw [hupd]; exact hk⟩
      · exact ⟨e', List.mem_cons_of_mem _ hmem, hk⟩
    · rw [if_neg he]
      rcases List.mem_cons.mp he' with rfl | hmem
      · exact ⟨e', List.mem_cons_self _ _, hk⟩
      · obtain ⟨e'', h1, h2⟩ := ih key' ⟨e', hmem, hk⟩
        exact ⟨e'', List.mem_cons_of_mem _ h1, h2⟩

/-- Helper: the upserted key itself is present after an upsert. -/
theorem upsert_key_self_mem (k : String × Nat × Nat)
    (upd : PayrollEntry → PayrollEntry) (c : PayrollEntry)
    (hupd : ∀ e, entryKey (upd e) = entryKey e) (hc : entryKey c = k) :
    ∀ l : List PayrollEntry, ∃ e' ∈ upsertEntryByKey k upd c l, entryKey e' = k := by
  intro l
  induction l with
  | nil => exact ⟨c, List.mem_cons_self _ _, hc⟩
  | cons e l ih =>
    unfold upsertEntryByKey
    by_cases he : entryKey e = k
    · rw [if_pos he]
      exact ⟨upd e, List.mem_cons_self _ _, by rw [hupd]; exact he⟩
    · rw [if_neg he]
      obtain ⟨e'', h1, h2⟩ := ih
      exact ⟨e'', List.mem_cons_of_mem _ h1, h2⟩

/-- Helper: upserting a field-increment (or creating a row carrying the
increment) raises the summed field at the upserted key by the increment, and
leaves every other key's sum unchanged. -/
theorem fieldSum_upsert_inc (ty t : OvertimeType) (k kq : String × Nat × Nat)
    (a : ℚ) (upd : PayrollEntry → PayrollEntry) (c : PayrollEntry)
    (hupd_key : ∀ e, entryKey (upd e) = entryKey e)
    (hupd_field : ∀ e, entryField t (upd e) = entryField t e + (if t = ty then a else 0))
    (hc_key : entryKey c = k)
    (hc_field : entryField t c = (if t = ty then a else 0)) :
    ∀ l : List PayrollEntry,
      ((upsertEntryByKey k upd c l).map
          (fun e => if entryKey e = kq then entryField t e else 0)).sum
        = (l.map (fun e => if entryKey e = kq then entryField t e else 0)).sum
          + (if kq = k then (if t = ty then a else 0) else 0) := by
  intro l
  induction l with
  | nil =>
    unfold upsertEntryByKey
    simp only [List.map_cons, List.map_nil, List.sum_cons, List.sum_nil]
    by_cases hq : kq = k
    · rw [if_pos (by rw [hc_key]; exact hq.symm), hc_field, if_pos hq]
      ring
    · rw [if_neg (by rw [hc_key]; exact fun h => hq h.symm), if_neg hq]
      try ring
  | cons e l ih =>
    unfold upsertEntryByKey
    by_cases he : entryKey e = k
    · rw [if_pos he]
      simp only [List.map_cons, List.sum_cons]
      by_cases hq : kq = k
      · have h1 : entryKey (upd e) = kq := by rw [hupd_key, he, hq]
        have h2 : entryKey e = kq := by rw [he, hq]
        rw [if_pos h1, if_pos h2, hupd_field, if_pos hq]
        ring
      · have h2 : ¬ entryKey e = kq := by rw [he]; exact fun h => hq h.symm
        have h1 : ¬ entryKey (upd e) = kq := by rw [hupd_key]; exact h2
        rw [if_neg h1, if_neg h2, if_neg hq]
        ring
    · rw [if_neg he]
      simp only [List.map_cons, List.sum_cons, ih]
      ring

/-- Helper: with unique payroll keys, a key that occurs occurs exactly once. -/
theorem countP_key_eq_one (k : String × Nat × Nat) :
    ∀ l : List PayrollEntry, (l.map entryKey).Nodup →
      (∃ e ∈ l, entryKey e = k) →
      l.countP (fun e => decide (entryKey e = k)) = 1 := by
  intro l
  induction l with
  | nil =>
    rintro _ ⟨e, he, _⟩
    simp at he
  | cons e l ih =>
    intro hnd hex
    rw [List.map_cons, List.nodup_cons] at hnd
    rw [List.countP_cons]
    by_cases he : entryKey e = k
    · have h0 : l.countP (fun e => decide (entryKey e = k)) = 0 := by
        rw [List.countP_eq_zero]
        intro e' he'
        simp only [decide_eq_true_eq]
        intro hk
        exact hnd.1 (by rw [he, ← hk]; exact List.mem_map_of_mem entryKey he')
      rw [h0]
      simp [he]
    · obtain ⟨e', he', hk⟩ := hex
      rcases List.mem_cons.mp he' with rfl | he''
      · exact absurd hk he
      · rw [ih hnd.2 ⟨e', he'', hk⟩]
        simp [he]

/-- Helper: deleting the unique overtime row with a given id removes exactly
its contribution from the per-type/key amount sum. -/
theorem otSum_filter_del (t : OvertimeType) (k : String × Nat × Nat) (i : Nat)
    (o : OvertimeEntry) :
    ∀ l : List OvertimeEntry, (l.map (fun x => x.id)).Nodup →
      l.find? (fun x => decide (x.id = i)) = some o →
      ((l.filter (fun x => decide (¬ x.id = i))).map (otAmount t k)).sum
        = (l.map (otAmount t k)).sum - otAmount t k o := by
  intro l
  induction l with
  | nil =>
    intro _ h
    simp at h
  | cons x l ih =>
    intro hnd hfind
    rw [List.map_cons, List.nodup_cons] at hnd
    by_cases hx : x.id = i
    · rw [List.find?_cons_of_pos _ (by simp [hx])] at hfind
      injection hfind with hfind
      subst hfind
      rw [List.filter_cons_of_neg (by simp [hx])]
      have hkeep : l.filter (fun y => decide (¬ y.id = i)) = l := by
        rw [List.filter_eq_self]
        intro y hy
        simp only [decide_eq_true_eq]
        intro hyid
        exact hnd.1 (by rw [← hx] at hyid; rw [← hyid]; exact List.mem_map_of_mem _ hy)
      rw [hkeep, List.map_cons, List.sum_cons]
      ring
    · rw [List.find?_cons_of_neg _ (by simp [hx])] at hfind
      rw [List.filter_cons_of_pos (by simp [hx])]
      simp only [List.map_cons, List.sum_cons, ih hnd.2 hfind]
      ring

/-- Helper: a key-preserving rewrite of every row leaves the key list
unchanged. -/
theorem map_entryKey_of_key_preserving (g : PayrollEntry → PayrollEntry)
    (hg : ∀ e, entryKey (g e) = entryKey e) :
    ∀ l : List PayrollEntry, (l.map g).map entryKey = l.map entryKey := by
  intro l
  induction l with
  | nil => rfl
  | cons e l ih => simp only [List.map_cons, ih, hg]

/-- Helper: the overtime field selected by t of a freshly created payroll row
carrying the new amount in the slot of type ty. -/
theorem entryField_create (t ty : OvertimeType) (a : ℚ) (c : PayrollEntry)
    (h50 : c.overtime50 = if ty = .OVERTIME_50 then a else 0)
    (h100 : c.overtime100 = if ty = .OVERTIME_100 then a else 0) :
    entryField t c = if t = ty then a else 0 := by
  cases ty <;> cases t <;> simp [entryField, h50, h100]

/-- Helper: createOvertimeEntry preserves the overtime-ledger invariant (the
transaction inserts the row and increments the payroll field together). -/
theorem otInv_create (st : DB) (input : CreateOvertimeEntryInput)
    (h : OtInv st) : OtInv (createOvertimeEntry st input).1 := by
  unfold createOvertimeEntry
  cases hemp : lookupEmployee st input.employeeId with
  | none => exact h
  | some employee =>
    dsimp only
    have hupd : ∀ e : PayrollEntry, entryKey (match input.type with
        | .OVERTIME_50 => { e with overtime50 := e.overtime50 + input.amount }
        | .OVERTIME_100 => { e with overtime100 := e.overtime100 + input.amount })
        = entryKey e := by
      intro e
      cases input.type <;> rfl
    refine ⟨?_, ?_, ?_, ?_, ?_⟩
    · dsimp only
      exact upsert_keys_nodup (input.employeeId, input.month, input.year) _ _ hupd
        (by rfl) st.entries h.entriesKeysNodup
    · dsimp only
      rw [List.map_append, List.nodup_append]
      refine ⟨h.otIdsNodup, List.nodup_singleton _, ?_⟩
      intro x hx hx2
      simp only [List.map_cons, List.map_nil, List.mem_singleton] at hx2
      obtain ⟨o, ho, rfl⟩ := List.mem_map.mp hx
      exact absurd hx2 (Nat.ne_of_lt (h.otIdsFresh o ho))
    · dsimp only
      intro o ho
      rcases List.mem_append.mp ho with ho | ho
      · exact Nat.lt_succ_of_lt (h.otIdsFresh o ho)
      · simp only [List.mem_singleton] at ho
        subst ho
        exact Nat.lt_succ_self _
    · dsimp only
      intro o ho
      rcases List.mem_append.mp ho with ho | ho
      · obtain ⟨e, he, hke⟩ := h.otCovered o ho
        exact upsert_key_mem_of_mem (input.employeeId, input.month, input.year) _ _
          hupd st.entries (otKey o) ⟨e, he, hke⟩
      · simp only [List.mem_singleton] at ho
        subst ho
        exact upsert_key_self_mem (input.employeeId, input.month, input.year) _ _
          hupd (by rfl) st.entries
    · intro t kq
      have hfield : ∀ e : PayrollEntry, entryField t (match input.type with
          | .OVERTIME_50 => { e with overtime50 := e.overtime50 + input.amount }
          | .OVERTIME_100 => { e with overtime100 := e.overtime100 + input.amount })
          = entryField t e + (if t = input.type then input.amount else 0) := by
        intro e
        cases input.type <;> cases t <;> simp [entryField]
      have hsum := h.sumsEq t kq
      unfold overtimeSum payrollFieldSum at hsum ⊢
      dsimp only
      rw [List.map_append, List.sum_append]
      rw [fieldSum_upsert_inc input.type t (input.employeeId, input.month, input.year)
        kq input.amount _ _ hupd hfield (by rfl)
        (entryField_create t input.type input.amount _ (by rfl) (by rfl)) st.entries]
      rw [hsum]
      simp only [List.map_cons, List.map_nil, List.sum_cons, List.sum_nil, add_zero]
      congr 1
      unfold otAmount otKey
      dsimp only
      by_cases h1 : kq = (input.employeeId, input.month, input.year)
      · by_cases h2 : t = input.type
        · rw [if_pos ⟨h1.symm, h2.symm⟩, if_pos h1, if_pos h2]
        · rw [if_neg (fun hc => h2 hc.2.symm), if_pos h1, if_neg h2]
      · rw [if_neg (fun hc => h1 hc.1.symm), if_neg h1]

/-- Helper: deleteOvertimeEntry preserves the overtime-ledger invariant (the
transaction deletes the row and decrements the payroll field together). -/
theorem otInv_delete (st : DB) (i : Nat) (h : OtInv st) :
    OtInv (deleteOvertimeEntry st i).1 := by
  unfold deleteOvertimeEntry
  cases hfind : st.overtime.find? (fun x => decide (x.id = i)) with
  | none => exact h
  | some o =>
    dsimp only
    have ho_mem : o ∈ st.overtime := List.mem_of_find?_eq_some hfind
    have hg : ∀ e : PayrollEntry, entryKey (if entryKey e = otKey o then
        (match o.type with
         | .OVERTIME_50 => { e with overtime50 := e.overtime50 - o.amount }
         | .OVERTIME_100 => { e with overtime100 := e.overtime100 - o.amount })
        else e) = entryKey e := by
      intro e
      split
      · cases o.type <;> rfl
      · rfl
    refine ⟨?_, ?_, ?_, ?_, ?_⟩
    · dsimp only
      rw [map_entryKey_of_key_preserving _ hg st.entries]
      exact h.entriesKeysNodup
    · dsimp only
      exact h.otIdsNodup.sublist (List.Sublist.map _ (List.filter_sublist _))
    · dsimp only
      intro o' ho'
      exact h.otIdsFresh o' (List.mem_of_mem_filter ho')
    · dsimp only
      intro o' ho'
      obtain ⟨e, he, hke⟩ := h.otCovered o' (List.mem_of_mem_filter ho')
      exact ⟨_, List.mem_map_of_mem _ he, by rw [hg]; exact hke⟩
    · intro t kq
      have hsum := h.sumsEq t kq
      unfold overtimeSum payrollFieldSum at hsum ⊢
      dsimp only
      rw [otSum_filter_del t kq i o st.overtime h.otIdsNodup hfind]
      rw [fieldSum_map_update t kq (otKey o)
        (fun e => match o.type with
          | .OVERTIME_50 => { e with overtime50 := e.overtime50 - o.amount }
          | .OVERTIME_100 => { e with overtime100 := e.overtime100 - o.amount })
        (if t = o.type then -o.amount else 0)
        (fun e => by cases o.type <;> rfl)
        (fun e => by cases o.type <;> cases t <;> simp [entryField, sub_eq_add_neg])
        st.entries]
      rw [hsum, sub_eq_add_neg]
      congr 1
      by_cases h1 : kq = otKey o
      · rw [if_pos h1]
        rw [countP_key_eq_one (otKey o) st.entries h.entriesKeysNodup
          (h.otCovered o ho_mem)]
        rw [Nat.cast_one, one_mul]
        by_cases h2 : t = o.type
        · rw [if_pos h2]
          unfold otAmount
          rw [if_pos ⟨h1.symm, h2.symm⟩]
        · rw [if_neg h2]
          unfold otAmount
          rw [if_neg (fun hc => h2 hc.2.symm), neg_zero]
      · rw [if_neg h1]
        unfold otAmount
        rw [if_neg (fun hc => h1 hc.1.symm), neg_zero]

/-- Helper: the invariant holds after any sequence of overtime operations. -/
theorem otInv_run (ops : List OvertimeOp) :
    ∀ st : DB, OtInv st → OtInv (runOvertimeOps st ops) := by
  induction ops with
  | nil =>
    intro st h
    exact h
  | cons op ops ih =>
    intro st h
    unfold runOvertimeOps
    apply ih
    cases op with
    | create input => exact otInv_create st input h
    | delete i => exact otInv_delete st i h

/-- Claim C5: starting from a state with no overtime entries, zero
overtime50/overtime100 fields and unique payroll keys, after any sequence of
createOvertime/deleteOvertime operations the stored OVERTIME_50 amounts for
each (employee, month, year) sum to that payroll row's overtime50 field, and
symmetrically for OVERTIME_100 (each operation adjusts the ledger row and the
payroll field in one transaction, so this holds in every reachable state). -/
theorem C5_overtime_sum (ops : List OvertimeOp) (st0 : DB)
    (hkeys : (st0.entries.map entryKey).Nodup)
    (hot : st0.overtime = [])
    (hzero : ∀ e ∈ st0.entries, e.overtime50 = 0 ∧ e.overtime100 = 0)
    (t : OvertimeType) (empId : String) (m y : Nat) :
    overtimeSum (runOvertimeOps st0 ops) t (empId, m, y)
      = payrollFieldSum (runOvertimeOps st0 ops) t (empId, m, y) := by
  have hinv : OtInv st0 := by
    refine ⟨hkeys, ?_, ?_, ?_, ?_⟩
    · rw [hot]
      exact List.nodup_nil
    · intro o ho
      rw [hot] at ho
      simp at ho
    · intro o ho
      rw [hot] at ho
      simp at ho
    · intro t' k
      unfold overtimeSum payrollFieldSum
      rw [hot]
      simp only [List.map_nil, List.sum_nil]
      symm
      apply List.sum_eq_zero
      intro x hx
      obtain ⟨e, he, rfl⟩ := List.mem_map.mp hx
      split
      · cases t' with
        | OVERTIME_50 => exact (hzero e he).1
        | OVERTIME_100 => exact (hzero e he).2
      · rfl
  exact (otInv_run ops st0 hinv).sumsEq t (empId, m, y)

/-- Witness for C5: one concrete create operation from an empty ledger. -/
theorem C5_overtime_sum_witness :
    (stC5w.entries.map entryKey).Nodup
    ∧ stC5w.overtime = []
    ∧ overtimeSum (runOvertimeOps stC5w [OvertimeOp.create inC5])
        .OVERTIME_50 ("a1", 1, 2024)
      = payrollFieldSum (runOvertimeOps stC5w [OvertimeOp.create inC5])
        .OVERTIME_50 ("a1", 1, 2024) := by
  refine ⟨by simp [stC5w], rfl, ?_⟩
  exact C5_overtime_sum [OvertimeOp.create inC5] stC5w (by simp [stC5w]) rfl
    (by intro e he; simp [stC5w] at he) .OVERTIME_50 "a1" 1 2024

/-- Helper: the response path keeps the row's employeeId. -/
theorem transformToResponse_employeeId (emp : Employee) (e : PayrollEntry)
    (r : PayrollEntryResponse) (h : transformToResponse emp e = .ok r) :
    r.employeeId = e.employeeId := by
  unfold transformToResponse at h
  cases hc : calculatePayrollFields emp.salary emp.workingDays e with
  | error m =>
    rw [hc] at h
    simp at h
  | ok calcs =>
    rw [hc] at h
    simp only [Except.ok.injEq] at h
    subst h
    rfl

/-- Helper: a successful transformList maps rows to responses one-for-one,
preserving employeeIds in order. -/
theorem transformList_ok_map (st : DB) :
    ∀ (l : List PayrollEntry) (rs : List PayrollEntryResponse),
      transformList st l = .ok rs →
      rs.map (fun r => r.employeeId) = l.map (fun e => e.employeeId) := by
  intro l
  induction l with
  | nil =>
    intro rs h
    unfold transformList at h
    simp only [Except.ok.injEq] at h
    subst h
    rfl
  | cons e l ih =>
    intro rs h
    unfold transformList at h
    cases hemp : lookupEmployee st e.employeeId with
    | none =>
      rw [hemp] at h
      simp at h
    | some emp =>
      rw [hemp] at h
      dsimp only at h
      cases htr : transformToResponse emp e with
      | error m =>
        rw [htr] at h
        simp at h
      | ok r =>
        rw [htr] at h
        dsimp only at h
        cases hrec : transformList st l with
        | error err =>
          rw [hrec] at h
          simp at h
        | ok rs' =>
          rw [hrec] at h
          simp only [Except.ok.injEq] at h
          subst h
          simp only [List.map_cons, ih rs' hrec]
          rw [transformToResponse_employeeId emp e r htr]

/-- Helper: countP respects pointwise-equal predicates. -/
theorem countP_congr_list {α : Type} (p q : α → Bool) :
    ∀ l : List α, (∀ a ∈ l, p a = q a) → l.countP p = l.countP q := by
  intro l
  induction l with
  | nil => intro _; rfl
  | cons a l ih =>
    intro h
    rw [List.countP_cons, List.countP_cons, h a (List.mem_cons_self a l),
      ih (fun b hb => h b (List.mem_cons_of_mem a hb))]

/-- Helper: counting inside a filter is counting the conjunction. -/
theorem countP_filter_list {α : Type} (p q : α → Bool) :
    ∀ l : List α, (l.filter q).countP p = l.countP (fun a => p a && q a) := by
  intro l
  induction l with
  | nil => rfl
  | cons a l ih =>
    rw [List.countP_cons]
    by_cases hq : q a = true
    · rw [List.filter_cons_of_pos hq, List.countP_cons, ih, hq]
      simp
    · rw [List.filter_cons_of_neg (by simp at hq ⊢; exact hq), ih]
      have hqf : q a = false := Bool.eq_false_iff.mpr hq
      rw [hqf]
      simp

/-- Helper: the conjunction of the employeeId test and the period test is the
key test. -/
theorem keymatch_bool (x : String) (m y : Nat) (e : PayrollEntry) :
    (decide (e.employeeId = x) && decide (e.month = m ∧ e.year = y))
      = decide (entryKey e = (x, m, y)) := by
  by_cases h1 : e.employeeId = x <;> by_cases h2 : e.month = m ∧ e.year = y <;>
    simp [entryKey, h1, h2, Prod.ext_iff] <;> tauto

/-- Helper: with unique employee ids, an id that occurs occurs exactly once. -/
theorem countP_empId_eq_one (x : String) :
    ∀ l : List Employee, (l.map (fun e => e.id)).Nodup →
      (∃ e ∈ l, e.id = x) →
      l.countP (fun e => decide (e.id = x)) = 1 := by
  intro l
  induction l with
  | nil =>
    rintro _ ⟨e, he, _⟩
    simp at he
  | cons e l ih =>
    intro hnd hex
    rw [List.map_cons, List.nodup_cons] at hnd
    rw [List.countP_cons]
    by_cases he : e.id = x
    · have h0 : l.countP (fun e => decide (e.id = x)) = 0 := by
        rw [List.countP_eq_zero]
        intro e' he'
        simp only [decide_eq_true_eq]
        intro hk
        exact hnd.1 (by rw [he, ← hk]; exact List.mem_map_of_mem _ he')
      rw [h0]
      simp [he]
    · obtain ⟨e', he', hk⟩ := hex
      rcases List.mem_cons.mp he' with rfl | he''
      · exact absurd hk he
      · rw [ih hnd.2 ⟨e', he'', hk⟩]
        simp [he]

/-- Helper: every auto-created row comes from one of the employees handed to
createMany, with the default period fields. -/
theorem mem_mkPeriodEntries (m y : Nat) :
    ∀ (nid : Nat) (emps : List Employee) (e : PayrollEntry),
      e ∈ mkPeriodEntries m y nid emps →
      ∃ emp ∈ emps, ∃ j : Nat, e = mkPeriodEntry m y j emp := by
  intro nid emps
  induction emps generalizing nid with
  | nil =>
    intro e he
    simp [mkPeriodEntries] at he
  | cons emp emps ih =>
    intro e he
    unfold mkPeriodEntries at he
    rcases List.mem_cons.mp he with rfl | he'
    · exact ⟨emp, List.mem_cons_self _ _, nid, rfl⟩
    · obtain ⟨emp', h1, j, h2⟩ := ih (nid + 1) e he'
      exact ⟨emp', List.mem_cons_of_mem _ h1, j, h2⟩

/-- Helper: every employee handed to createMany gets an auto-created row. -/
theorem mkPeriodEntries_mem_of_mem (m y : Nat) :
    ∀ (nid : Nat) (emps : List Employee) (emp : Employee), emp ∈ emps →
      ∃ e ∈ mkPeriodEntries m y nid emps, ∃ j : Nat, e = mkPeriodEntry m y j emp := by
  intro nid emps
  induction emps generalizing nid with
  | nil =>
    intro emp he
    simp at he
  | cons emp0 emps ih =>
    intro emp he
    unfold mkPeriodEntries
    rcases List.mem_cons.mp he with rfl | he'
    · exact ⟨mkPeriodEntry m y nid emp, List.mem_cons_self _ _, nid, rfl⟩
    · obtain ⟨e, h1, j, h2⟩ := ih (nid + 1) emp he'
      exact ⟨e, List.mem_cons_of_mem _ h1, j, h2⟩

/-- Helper: created rows count employeeIds exactly as the employee list counts
ids. -/
theorem countP_mkPeriodEntries (m y : Nat) (x : String) :
    ∀ (nid : Nat) (emps : List Employee),
      (mkPeriodEntries m y nid emps).countP (fun e => decide (e.employeeId = x))
        = emps.countP (fun emp => decide (emp.id = x)) := by
  intro nid emps
  induction emps generalizing nid with
  | nil => rfl
  | cons emp emps ih =>
    unfold mkPeriodEntries
    rw [List.countP_cons, List.countP_cons, ih (nid + 1)]
    rfl

/-- Helper: membership in the period's existing-employee ids is existence of a
row with the period key. -/
theorem mem_periodExistingIds (st : DB) (m y : Nat) (x : String) :
    x ∈ periodExistingIds st m y ↔ ∃ e ∈ st.entries, entryKey e = (x, m, y) := by
  unfold periodExistingIds
  constructor
  · intro hx
    obtain ⟨e, he, rfl⟩ := List.mem_map.mp hx
    obtain ⟨he', hmy⟩ := List.mem_filter.mp he
    simp only [decide_eq_true_eq] at hmy
    exact ⟨e, he', by simp [entryKey, hmy.1, hmy.2]⟩
  · rintro ⟨e, he, hk⟩
    have h1 : e.employeeId = x ∧ e.month = m ∧ e.year = y := by
      unfold entryKey at hk
      simpa [Prod.ext_iff] using hk
    refine List.mem_map.mpr ⟨e, List.mem_filter.mpr ⟨he, ?_⟩, h1.1⟩
    simp [h1.2.1, h1.2.2]

/-- Helper: for an id among the active employees' ids, counting that id in the
period's filtered rows splits into the stored rows with that key plus the
auto-created rows for that id. -/
theorem periodFiltered_countP (st : DB) (m y : Nat) (x : String)
    (hx : x ∈ (periodActiveEmployees st m y).map (fun e => e.id)) :
    (periodFiltered st m y).countP (fun e => decide (e.employeeId = x))
      = st.entries.countP (fun e => decide (entryKey e = (x, m, y)))
        + (periodToCreate st m y).countP (fun e => decide (e.id = x)) := by
  unfold periodFiltered
  rw [countP_filter_list, countP_filter_list]
  have hdropQ : ∀ e ∈ (periodCreatedState st m y).entries,
      ((decide (e.employeeId = x)
          && decide (e.employeeId ∈ (periodActiveEmployees st m y).map (fun emp => emp.id)))
        && decide (e.month = m ∧ e.year = y))
      = (decide (e.employeeId = x) && decide (e.month = m ∧ e.year = y)) := by
    intro e _
    by_cases hP : e.employeeId = x
    · simp [hP, hx]
    · simp [hP]
  rw [countP_congr_list _ _ _ hdropQ]
  have hsplit : (periodCreatedState st m y).entries
      = st.entries ++ mkPeriodEntries m y st.nextEntryId (periodToCreate st m y) := rfl
  rw [hsplit, List.countP_append]
  congr 1
  · exact countP_congr_list _ _ st.entries (fun e _ => keymatch_bool x m y e)
  · have hpt : ∀ e ∈ mkPeriodEntries m y st.nextEntryId (periodToCreate st m y),
        (decide (e.employeeId = x) && decide (e.month = m ∧ e.year = y))
          = decide (e.employeeId = x) := by
      intro e he
      obtain ⟨emp', _, j, rfl⟩ := mem_mkPeriodEntries m y st.nextEntryId _ e he
      simp [mkPeriodEntry]
    rw [countP_congr_list _ _ _ hpt]
    exact countP_mkPeriodEntries m y x st.nextEntryId _

/-- Claim C7: for a successful period fetch on a well-formed state (unique
employee ids and unique payroll keys), the returned list has exactly one
response per active employee; a previously entry-less active employee gets a
row auto-created with daysWorked = workingDaysBase, money fields 0 and
sortOrder 0; an employee whose endDate precedes the period gets no response
and no auto-created row. -/
theorem C7_period_entries (st : DB) (m y : Nat) (st' : DB)
    (rs : List PayrollEntryResponse)
    (hnodupEmp : (st.employees.map (fun e => e.id)).Nodup)
    (hnodupKeys : (st.entries.map entryKey).Nodup)
    (hrun : getPayrollByMonth st m y = (st', .ok rs)) :
    (∀ emp ∈ st.employees, isActiveFor m y emp = true →
      rs.countP (fun r => decide (r.employeeId = emp.id)) = 1
      ∧ ((∀ e ∈ st.entries, ¬ entryKey e = (emp.id, m, y)) →
          ∃ e ∈ st'.entries, entryKey e = (emp.id, m, y)
            ∧ e.daysWorked = emp.workingDays ∧ e.sortOrder = 0
            ∧ e.advance = 0 ∧ e.officialAdvance = 0 ∧ e.overtime50 = 0
            ∧ e.overtime100 = 0 ∧ e.officialPayment = 0 ∧ e.cashPayment = 0))
    ∧ (∀ emp ∈ st.employees, isActiveFor m y emp = false →
      rs.countP (fun r => decide (r.employeeId = emp.id)) = 0
      ∧ st'.entries.countP (fun e => decide (entryKey e = (emp.id, m, y)))
          = st.entries.countP (fun e => decide (entryKey e = (emp.id, m, y)))) := by
  unfold getPayrollByMonth at hrun
  split at hrun
  next => simp at hrun
  next hc1 =>
    split at hrun
    next => simp at hrun
    next hc2 =>
      split at hrun
      next err heq => simp at hrun
      next rs0 heq =>
        simp only [Prod.mk.injEq, Except.ok.injEq] at hrun
        obtain ⟨hst, hrs⟩ := hrun
        subst hst
        subst hrs
        have hmap := transformList_ok_map (periodCreatedState st m y)
          (periodFiltered st m y) rs0 heq
        have hcount : ∀ x : String,
            rs0.countP (fun r => decide (r.employeeId = x))
              = (periodFiltered st m y).countP (fun e => decide (e.employeeId = x)) := by
          intro x
          have h1 : (rs0.map (fun r => r.employeeId)).countP (fun s => decide (s = x))
              = rs0.countP (fun r => decide (r.employeeId = x)) :=
            List.countP_map _ _ _
          have h2 : ((periodFiltered st m y).map (fun e => e.employeeId)).countP
                (fun s => decide (s = x))
              = (periodFiltered st m y).countP (fun e => decide (e.employeeId = x)) :=
            List.countP_map _ _ _
          rw [← h1, hmap, h2]
        constructor
        · intro emp hmem hact
          have hempA : emp ∈ periodActiveEmployees st m y :=
            List.mem_filter.mpr ⟨hmem, hact⟩
          have hxA : emp.id ∈ (periodActiveEmployees st m y).map (fun e => e.id) :=
            List.mem_map_of_mem _ hempA
          constructor
          · rw [hcount emp.id, periodFiltered_countP st m y emp.id hxA]
            by_cases hEI : emp.id ∈ periodExistingIds st m y
            · have h1 : st.entries.countP
                  (fun e => decide (entryKey e = (emp.id, m, y))) = 1 :=
                countP_key_eq_one (emp.id, m, y) st.entries hnodupKeys
                  ((mem_periodExistingIds st m y emp.id).mp hEI)
              have h0 : (periodToCreate st m y).countP
                  (fun e => decide (e.id = emp.id)) = 0 := by
                rw [List.countP_eq_zero]
                intro e' he'
                simp only [decide_eq_true_eq]
                intro hid
                have := (List.mem_filter.mp he').2
                simp only [decide_eq_true_eq] at this
                exact this (by rw [hid]; exact hEI)
              rw [h1, h0]
            · have h1 : st.entries.countP
                  (fun e => decide (entryKey e = (emp.id, m, y))) = 0 := by
                rw [List.countP_eq_zero]
                intro e he
                simp only [decide_eq_true_eq]
                intro hk
                exact hEI ((mem_periodExistingIds st m y emp.id).mpr ⟨e, he, hk⟩)
              have hTC : emp ∈ periodToCreate st m y := by
                refine List.mem_filter.mpr ⟨hempA, ?_⟩
                simp only [decide_eq_true_eq]
                exact hEI
              have hTCnodup : ((periodToCreate st m y).map (fun e => e.id)).Nodup := by
                refine hnodupEmp.sublist (List.Sublist.map _ ?_)
                exact ((List.filter_sublist _).trans (List.filter_sublist _))
              have h2 : (periodToCreate st m y).countP
                  (fun e => decide (e.id = emp.id)) = 1 :=
                countP_empId_eq_one emp.id (periodToCreate st m y) hTCnodup
                  ⟨emp, hTC, rfl⟩
              rw [h1, h2]
          · intro hlack
            have hEI : emp.id ∉ periodExistingIds st m y := by
              intro hc
              obtain ⟨e, he, hk⟩ := (mem_periodExistingIds st m y emp.id).mp hc
              exact hlack e he hk
            have hTC : emp ∈ periodToCreate st m y := by
              refine List.mem_filter.mpr ⟨hempA, ?_⟩
              simp only [decide_eq_true_eq]
              exact hEI
            obtain ⟨e, heCR, j, rfl⟩ :=
              mkPeriodEntries_mem_of_mem m y st.nextEntryId _ emp hTC
            refine ⟨mkPeriodEntry m y j emp, ?_, rfl, rfl, rfl, rfl, rfl, rfl, rfl, rfl, rfl⟩
            exact List.mem_append.mpr (Or.inr heCR)
        · intro emp hmem hact
          have hnot : emp.id ∉ (periodActiveEmployees st m y).map (fun e => e.id) := by
            intro hc
            obtain ⟨emp', hemp', hid⟩ := List.mem_map.mp hc
            have hemp'mem := (List.mem_filter.mp hemp').1
            have hemp'act := (List.mem_filter.mp hemp').2
            have heq' : emp' = emp :=
              List.inj_on_of_nodup_map hnodupEmp hemp'mem hmem hid
            rw [heq'] at hemp'act
            rw [hemp'act] at hact
            cases hact
          constructor
          · rw [hcount emp.id]
            unfold periodFiltered
            rw [countP_filter_list, countP_filter_list, List.countP_eq_zero]
            intro e _
            simp only [Bool.and_eq_true, decide_eq_true_eq]
            rintro ⟨⟨hP, hQ⟩, _⟩
            rw [hP] at hQ
            exact hnot hQ
          · have hsplit : (periodCreatedState st m y).entries
                = st.entries ++ mkPeriodEntries m y st.nextEntryId (periodToCreate st m y) := rfl
            rw [hsplit, List.countP_append]
            have h0 : (mkPeriodEntries m y st.nextEntryId (periodToCreate st m y)).countP
                (fun e => decide (entryKey e = (emp.id, m, y))) = 0 := by
              rw [List.countP_eq_zero]
              intro e he
              simp only [decide_eq_true_eq]
              intro hk
              obtain ⟨emp', hemp', j, rfl⟩ :=
                mem_mkPeriodEntries m y st.nextEntryId _ e he
              have hid : emp'.id = emp.id := by
                have : entryKey (mkPeriodEntry m y j emp') = (emp'.id, m, y) := rfl
                rw [this] at hk
                exact (Prod.ext_iff.mp hk).1
              have hemp'A : emp' ∈ periodActiveEmployees st m y :=
                (List.mem_filter.mp hemp').1
              exact hnot (by rw [← hid]; exact List.mem_map_of_mem _ hemp'A)
            rw [h0, Nat.add_zero]

/-- Witness for C7 at a concrete state: fetching period 2024-01 on stC7
succeeds; the active employee w1 gets exactly one response, over a row
auto-created with daysWorked = workingDaysBase and zero money fields; the
departed employee w2 gets no response and no created row. -/
theorem C7_period_entries_witness :
    getPayrollByMonth stC7 1 2024 = (periodCreatedState stC7 1 2024, .ok [respC7])
    ∧ ([respC7].countP (fun r => decide (r.employeeId = empC7a.id)) = 1
      ∧ (∃ e ∈ (periodCreatedState stC7 1 2024).entries,
          entryKey e = (empC7a.id, 1, 2024)
          ∧ e.daysWorked = empC7a.workingDays ∧ e.sortOrder = 0
          ∧ e.advance = 0 ∧ e.officialAdvance = 0 ∧ e.overtime50 = 0
          ∧ e.overtime100 = 0 ∧ e.officialPayment = 0 ∧ e.cashPayment = 0))
    ∧ ([respC7].countP (fun r => decide (r.employeeId = empC7b.id)) = 0
      ∧ (periodCreatedState stC7 1 2024).entries.countP
          (fun e => decide (entryKey e = (empC7b.id, 1, 2024)))
        = stC7.entries.countP
          (fun e => decide (entryKey e = (empC7b.id, 1, 2024)))) := by
  have htr : transformToResponse empC7a (mkPeriodEntry 1 2024 100 empC7a)
      = .ok respC7 := by
    unfold transformToResponse calculatePayrollFields calculatePayroll
      calculateDailyWage calculateEarnedSalary calculateTotalReceivable
      calculateOfficialAndCash mkPeriodEntry empC7a respC7
      FIXED_OFFICIAL_PAYMENT OFFICIAL_WORKING_DAYS_BASE
    norm_num [min_def, max_def]
    rfl
  have hrun : getPayrollByMonth stC7 1 2024
      = (periodCreatedState stC7 1 2024, .ok [respC7]) := by
    unfold getPayrollByMonth
    rw [if_neg (by decide), if_neg (by decide)]
    have hpf : periodFiltered stC7 1 2024 = [mkPeriodEntry 1 2024 100 empC7a] := rfl
    rw [hpf]
    have hTL : transformList (periodCreatedState stC7 1 2024)
        [mkPeriodEntry 1 2024 100 empC7a] = .ok [respC7] := by
      conv_lhs => unfold transformList
      rw [show lookupEmployee (periodCreatedState stC7 1 2024)
          (mkPeriodEntry 1 2024 100 empC7a).employeeId = some empC7a from rfl]
      dsimp only
      rw [htr]
      rfl
    rw [hTL]
  have h := C7_period_entries stC7 1 2024 (periodCreatedState stC7 1 2024)
    [respC7] (by decide) (by decide) hrun
  have hmemA : empC7a ∈ stC7.employees := List.mem_cons_self _ _
  have hmemB : empC7b ∈ stC7.employees :=
    List.mem_cons_of_mem _ (List.mem_cons_self _ _)
  have hA := h.1 empC7a hmemA rfl
  have hB := h.2 empC7b hmemB rfl
  exact ⟨hrun, ⟨hA.1, hA.2 (fun e he => absurd he (List.not_mem_nil e))⟩, hB⟩
